import Mathlib

/-!
Verification of the cuBNM batch-orchestration layer (`src/cuBNM/sim.py`).

The Python classes `SimGroup`, `rWWSimGroup` and `rWWExSimGroup` are shallowly
embedded as a single Lean structure `SimGroup` carrying a `Variant` tag, and
the constructors / property setters / `run` bookkeeping / output demarshaling /
scoring of the source are embedded as pure functions over that structure.
Numpy arrays are modelled as (nested) lists of rationals (`ℚ`) where only the
marshaling structure matters, and as real numbers (`ℝ`) where the scoring
arithmetic (correlation, exponentials) matters.  Module-level build flags and
file contents loaded by `np.loadtxt` are modelled by an explicit `Env` record.
-/

namespace CuBNM

/-- The two concrete model variants of the source: `rWWSimGroup`
(`model_name = "rWW"`) and `rWWExSimGroup` (`model_name = "rWWEx"`). -/
inductive Variant where
  | rww
  | rwwEx
deriving DecidableEq, Repr

/-- `global_param_names` class attribute of each variant. -/
def globalParamNames : Variant → List String
  | .rww => ["G"]
  | .rwwEx => ["G"]

/-- `regional_param_names` class attribute of each variant. -/
def regionalParamNames : Variant → List String
  | .rww => ["wEE", "wEI", "wIE"]
  | .rwwEx => ["w", "I0", "sigma"]

/-- A numpy array stored in `param_lists`: either a 1-D array (shape `(N,)`)
or a 2-D array (shape `(N, nodes)`). -/
inductive NDArr where
  | vec (xs : List ℚ)
  | mat (m : List (List ℚ))
deriving DecidableEq, Repr

/-- `np.ndarray.flatten`: a 1-D array is unchanged, a 2-D array is
flattened row-major. -/
def NDArr.flatten : NDArr → List ℚ
  | .vec xs => xs
  | .mat m => m.flatten

/-- View an array as 1-D; global parameters are packed with
`np.ascontiguousarray(a)[np.newaxis, :]`, which yields one row of
the stacked matrix exactly when the stored array is 1-D of shape `(N,)`. -/
def NDArr.asVec : NDArr → Option (List ℚ)
  | .vec xs => some xs
  | .mat _ => none

/-- The dictionary returned by `SimGroup.get_config` /
`rWWSimGroup.get_config`.  Keys that are only present for some flag
combinations (`out_dir`, `gof_terms`, `N` only when `for_reinit` is false;
`do_fic`, `max_fic_trials` only for the rWW variant) are modelled as
`Option` fields, `none` meaning the key is absent from the dict. -/
structure Config where
  duration : ℚ
  TR : ℚ
  sc_path : String
  sc_dist_path : Option String
  extended_output : Bool
  extended_output_ts : Bool
  window_size : ℕ
  window_step : ℕ
  rand_seed : ℕ
  exc_interhemispheric : Bool
  force_cpu : Bool
  bw_params : String
  bold_remove_s : ℚ
  fcd_drop_edges : Bool
  noise_segment_length : ℚ
  out_dir : Option String
  gof_terms : Option (List String)
  N : Option ℕ
  do_fic : Option Bool
  max_fic_trials : Option ℕ
deriving DecidableEq, Repr

/-- Warnings printed by the constructors (each `print` call is modelled as
one tag appended to the warning list returned next to the constructed
group). -/
inductive Warn where
  | serialGPU
  | scDiagNonzero
  | manyNodesSync
  | manyNodesUnneeded
  | delayEnabled
  | serialNoFic
deriving DecidableEq, Repr

/-- Default `gof_terms` argument of `SimGroup.__init__`. -/
def defaultGofTerms : List String := ["+fc_corr", "-fc_diff", "-fcd_ks"]

/-- The keyword arguments of `SimGroup.__init__`, with the default values of
the Python signature as structure-field defaults. -/
structure SimGroupArgs where
  duration : ℚ
  TR : ℚ
  sc_path : String
  sc_dist_path : Option String := none
  out_dir : String := "same"
  extended_output : Bool := true
  extended_output_ts : Bool := false
  window_size : ℕ := 10
  window_step : ℕ := 2
  rand_seed : ℕ := 410
  exc_interhemispheric : Bool := true
  force_cpu : Bool := false
  serial_nodes : Bool := false
  gof_terms : List String := defaultGofTerms
  bw_params : String := "friston2003"
  bold_remove_s : ℚ := 30
  fcd_drop_edges : Bool := true
  noise_segment_length : Option ℚ := some 30
  sim_verbose : Bool := false
  progress_interval : ℕ := 500
deriving DecidableEq, Repr

/-- The extra keyword arguments of `rWWSimGroup.__init__` together with the
base arguments, with the Python default values. -/
structure RWWArgs where
  base : SimGroupArgs
  do_fic : Bool := true
  max_fic_trials : ℕ := 5
  fic_penalty : Bool := true
deriving DecidableEq, Repr

/-- Process environment of a construction: the module-level build flags
(`cuBNM._setup_opts`), the GPU count reported by `utils.avail_gpus()`, and
the matrices `np.loadtxt` returns for `sc_path` / `sc_dist_path`. -/
structure Env where
  gpu_enabled_flag : Bool
  many_nodes_flag : Bool
  max_nodes_reg : ℕ
  max_nodes_many : ℕ
  avail_gpus : ℕ
  sc : List (List ℚ)
  sc_dist : List (List ℚ)
deriving DecidableEq, Repr

/-- A named state-variable array in `sim_states`: the raw 1-D row of the
stacked state buffer, or — when `extended_output_ts` is set — that row
reshaped to `(N, timepoints, nodes)`. -/
inductive StateVal where
  | flat (xs : List ℚ)
  | cube (c : List (List (List ℚ)))
deriving DecidableEq, Repr

/-- The mutable state of a `SimGroup` (fields of `self`).  `variant` selects
the concrete subclass; `do_fic`, `max_fic_trials` and `fic_penalty` are
only meaningful for the `rww` variant (the `rwwEx` constructor leaves them
at their neutral values).  `paramN` models the `_N` attribute, `none`
meaning it was never assigned.  Output attributes are empty lists until a
run assigns them. -/
structure SimGroup where
  variant : Variant
  duration : ℚ
  TR : ℚ
  sc_path : String
  sc_dist_path : Option String
  sc : List (List ℚ)
  sc_dist : List (List ℚ)
  extended_output : Bool
  extended_output_ts : Bool
  window_size : ℕ
  window_step : ℕ
  rand_seed : ℕ
  exc_interhemispheric : Bool
  force_cpu : Bool
  serial_nodes : Bool
  gof_terms : List String
  bw_params : String
  bold_remove_s : ℚ
  fcd_drop_edges : Bool
  noise_segment_length : ℚ
  sim_verbose : Bool
  progress_interval : ℕ
  duration_msec : ℤ
  TR_msec : ℤ
  nodes : ℕ
  use_cpu : Bool
  sync_msec : Bool
  do_delay : Bool
  out_dir : String
  param_lists : List (String × Option NDArr)
  last_N : ℕ
  last_config : Config
  it : ℕ
  paramN : Option ℕ
  do_fic : Bool
  max_fic_trials : ℕ
  fic_penalty : Bool
  global_params : List (List ℚ) := []
  regional_params : List (List ℚ) := []
  sim_bold : List (List (List ℚ)) := []
  sim_fc_trils : List (List ℚ) := []
  sim_fcd_trils : List (List ℚ) := []
  sim_states_raw : List (List ℚ) := []
  global_bools : List (List Bool) := []
  global_ints : List (List ℤ) := []
  sim_states : List (String × StateVal) := []
  fic_unstable : List Bool := []
  fic_failed : List Bool := []
  fic_ntrials : List ℤ := []
deriving DecidableEq, Repr

/-- `SimGroup.get_config` (with the `rWWSimGroup.get_config` override applied
when the variant is rWW): the base dict always carries the fifteen core
fields; `out_dir`, `gof_terms` and (if `include_N`) `N` are added only when
`for_reinit` is false; the rWW variant additionally adds `do_fic` and
`max_fic_trials`. -/
def getConfig (g : SimGroup) (include_N : Bool) (for_reinit : Bool) : Config :=
  { duration := g.duration
    TR := g.TR
    sc_path := g.sc_path
    sc_dist_path := g.sc_dist_path
    extended_output := g.extended_output
    extended_output_ts := g.extended_output_ts
    window_size := g.window_size
    window_step := g.window_step
    rand_seed := g.rand_seed
    exc_interhemispheric := g.exc_interhemispheric
    force_cpu := g.force_cpu
    bw_params := g.bw_params
    bold_remove_s := g.bold_remove_s
    fcd_drop_edges := g.fcd_drop_edges
    noise_segment_length := g.noise_segment_length
    out_dir := if for_reinit then none else some g.out_dir
    gof_terms := if for_reinit then none else some g.gof_terms
    N := if !for_reinit && include_N then g.paramN else none
    do_fic := if g.variant = Variant.rww then some g.do_fic else none
    max_fic_trials := if g.variant = Variant.rww then some g.max_fic_trials else none }

/-- Placeholder config used only while the constructor assembles the group,
before the real `get_config(for_reinit=True)` snapshot is taken. -/
def dummyConfig : Config :=
  { duration := 0, TR := 0, sc_path := "", sc_dist_path := none
    extended_output := false, extended_output_ts := false
    window_size := 0, window_step := 0, rand_seed := 0
    exc_interhemispheric := false, force_cpu := false, bw_params := ""
    bold_remove_s := 0, fcd_drop_edges := false, noise_segment_length := 0
    out_dir := none, gof_terms := none, N := none
    do_fic := none, max_fic_trials := none }

/-- Dict assignment `param_lists[k] = v`: replace the value of an existing
key, or append a fresh key. -/
def storeSet (pl : List (String × Option NDArr)) (k : String) (v : Option NDArr) :
    List (String × Option NDArr) :=
  if pl.any (fun p => p.1 == k) then
    pl.map (fun p => if p.1 == k then (k, v) else p)
  else pl ++ [(k, v)]

/-- `np.any(np.diag(sc))`: some diagonal entry of the SC matrix is nonzero. -/
def scDiagNonzero (sc : List (List ℚ)) : Bool :=
  (List.range sc.length).any (fun i => decide (((sc.getD i []).getD i 0) ≠ 0))

/-- The body of `SimGroup.__init__`, parameterized by the variant-specific
class attributes and the rWW-specific fields that the subclass assigns
before calling it (they are visible to the virtual `get_config` used for
the `last_config` snapshot).  Returns the `print` warnings next to the
constructed object, or the message of the raised `NotImplementedError`. -/
def simGroupBuild (env : Env) (variant : Variant) (do_fic : Bool)
    (max_fic_trials : ℕ) (fic_penalty : Bool) (a : SimGroupArgs) :
    List Warn × SimGroup :=
  let sc := env.sc
  let noise_seg := a.noise_segment_length.getD a.duration
  let w1 : List Warn :=
    (if a.serial_nodes && !a.force_cpu then [Warn.serialGPU] else []) ++
    (if scDiagNonzero sc then [Warn.scDiagNonzero] else [])
  let nodes := sc.length
  let use_cpu := a.force_cpu || !env.gpu_enabled_flag || decide (env.avail_gpus = 0)
  let w2 := w1 ++
    (if nodes > env.max_nodes_reg then [Warn.manyNodesSync]
     else if !use_cpu && env.many_nodes_flag then [Warn.manyNodesUnneeded] else [])
  -- delay branch; note the `do_delay` property setter forces
  -- `sync_msec = do_delay` in both branches (in the no-delay branch it
  -- overwrites the `sync_msec = True` possibly set for many nodes)
  let do_delay := a.sc_dist_path.isSome
  let sc_dist := if do_delay then env.sc_dist else sc.map (List.map (fun _ => (0 : ℚ)))
  let w3 := w2 ++ (if do_delay then [Warn.delayEnabled] else [])
  let g0 : SimGroup :=
    { variant := variant
      duration := a.duration
      TR := a.TR
      sc_path := a.sc_path
      sc_dist_path := a.sc_dist_path
      sc := sc
      sc_dist := sc_dist
      extended_output := a.extended_output
      extended_output_ts := a.extended_output && a.extended_output_ts
      window_size := a.window_size
      window_step := a.window_step
      rand_seed := a.rand_seed
      exc_interhemispheric := a.exc_interhemispheric
      force_cpu := a.force_cpu
      serial_nodes := a.serial_nodes
      gof_terms := a.gof_terms
      bw_params := a.bw_params
      bold_remove_s := a.bold_remove_s
      fcd_drop_edges := a.fcd_drop_edges
      noise_segment_length := noise_seg
      sim_verbose := a.sim_verbose
      progress_interval := a.progress_interval
      duration_msec := ⌊a.duration * 1000⌋
      TR_msec := ⌊a.TR * 1000⌋
      nodes := nodes
      use_cpu := use_cpu
      sync_msec := do_delay
      do_delay := do_delay
      out_dir := if a.out_dir = "same" then a.sc_path.replace ".txt" "" else a.out_dir
      param_lists :=
        (globalParamNames variant ++ regionalParamNames variant ++ ["v"]).map
          (fun k => (k, (none : Option NDArr)))
      last_N := 0
      last_config := dummyConfig
      it := 0
      paramN := none
      do_fic := do_fic
      max_fic_trials := max_fic_trials
      fic_penalty := fic_penalty }
  (w3, { g0 with last_config := getConfig g0 false true })

/-- The body of `SimGroup.__init__`: raises `NotImplementedError` for node
counts beyond the compiled capacity class (on GPU), otherwise builds the
group.  Parameterized by the variant-specific class attributes and the
rWW-specific fields the subclass assigns before calling it (they are
visible to the virtual `get_config` used for the `last_config`
snapshot). -/
def simGroupInitCore (env : Env) (variant : Variant) (do_fic : Bool)
    (max_fic_trials : ℕ) (fic_penalty : Bool) (a : SimGroupArgs) :
    Except String (List Warn × SimGroup) :=
  let nodes := env.sc.length
  let use_cpu := a.force_cpu || !env.gpu_enabled_flag || decide (env.avail_gpus = 0)
  if nodes > env.max_nodes_reg ∧ ¬use_cpu = true ∧ ¬env.many_nodes_flag = true then
    Except.error "CUBNM_MANY_NODES required"
  else if nodes > env.max_nodes_reg ∧ ¬use_cpu = true ∧ env.many_nodes_flag = true
      ∧ nodes > env.max_nodes_many then
    Except.error "too many nodes"
  else
    Except.ok (simGroupBuild env variant do_fic max_fic_trials fic_penalty a)

/-- `rWWSimGroup.__init__`: assigns `do_fic` / `max_fic_trials` /
`fic_penalty`, calls the base constructor, then forces
`extended_output |= do_fic` and, in `serial_nodes` mode, warns and forces
`max_fic_trials = 0`. -/
def rwwInit (env : Env) (a : RWWArgs) : Except String (List Warn × SimGroup) :=
  (simGroupInitCore env Variant.rww a.do_fic a.max_fic_trials a.fic_penalty a.base).map
    (fun p =>
      let g1 := { p.2 with extended_output := p.2.extended_output || p.2.do_fic }
      if g1.serial_nodes then
        (p.1 ++ [Warn.serialNoFic], { g1 with max_fic_trials := 0 })
      else (p.1, g1))

/-- `rWWExSimGroup.__init__`: just the base constructor with the rWWEx
class attributes (the rWW-only fields keep neutral values and never enter
`get_config`). -/
def rwwExInit (env : Env) (a : SimGroupArgs) : Except String (List Warn × SimGroup) :=
  simGroupInitCore env Variant.rwwEx false 0 false a

/-- The `N` property setter: stores `_N`; zeroes the velocity parameter
when delay is disabled; the rWW override additionally zero-initializes
`wIE` of shape `(N, nodes)` when `do_fic` is set. -/
def setN (g : SimGroup) (n : ℕ) : SimGroup :=
  let g1 := { g with paramN := some n }
  let g2 :=
    if !g1.do_delay then
      { g1 with param_lists := storeSet g1.param_lists "v" (some (NDArr.vec (List.replicate n 0))) }
    else g1
  if g2.variant = Variant.rww ∧ g2.do_fic = true then
    { g2 with param_lists :=
        (storeSet g2.param_lists "wIE"
          (some (NDArr.mat (List.replicate n (List.replicate g2.nodes 0))))) }
  else g2

/-- The reinit decision taken at the top of `SimGroup.run`:
`force_reinit | (self.N != self.last_N) | (curr_config != self.last_config)`
with `curr_config = self.get_config(for_reinit=True)`.  `none` models the
`AttributeError` raised when `N` was never assigned. -/
def reinitDecision (g : SimGroup) (force_reinit : Bool) : Option Bool :=
  g.paramN.map (fun n =>
    force_reinit || decide (n ≠ g.last_N) || decide (getConfig g false true ≠ g.last_config))

/-- The bookkeeping `run` performs after the backend call returns:
`last_N = N`, `last_config = curr_config`, `it += 1` (with `n` the value of
`self.N` and the snapshot recomputed exactly as at the top of `run`). -/
def runBookkeeping (g : SimGroup) (n : ℕ) : SimGroup :=
  { g with last_N := n, last_config := getConfig g false true, it := g.it + 1 }

/-- Split a list into `m` consecutive chunks of `k` elements each
(row-major reshape to an `m × k` matrix; exact when `xs.length = m * k`). -/
def chunkExact (k : ℕ) : ℕ → List α → List (List α)
  | 0, _ => []
  | m + 1, xs => xs.take k :: chunkExact k m (xs.drop k)

/-- `arr.reshape(n, -1)`: numpy infers the second dimension as
`len / n` and raises when `n` does not divide the length (or is zero). -/
def reshape2 (n : ℕ) (xs : List α) : Option (List (List α)) :=
  if 0 < n ∧ xs.length % n = 0 then some (chunkExact (xs.length / n) n xs) else none

/-- `arr.reshape(n, -1, nodes)`: numpy infers the middle dimension as
`len / (n * nodes)` and raises when `n * nodes` does not divide the
length (or is zero). -/
def reshape3 (n nodes : ℕ) (xs : List α) : Option (List (List (List α))) :=
  if 0 < n ∧ 0 < nodes ∧ xs.length % (n * nodes) = 0 then
    some ((chunkExact (xs.length / n) n xs).map (chunkExact nodes (xs.length / n / nodes)))
  else none

/-- The tuple returned by the backend call `run_simulations` (§6 of the
call contract): three flat float buffers (BOLD, FC lower triangle, FCD
lower triangle), plus — when extended output was requested — the stacked
state-variable buffer, the per-simulation boolean flag rows and the
integer counter rows. -/
inductive BackendOut where
  | basic (bold fc fcd : List ℚ)
  | extended (bold fc fcd : List ℚ) (states : List (List ℚ))
      (bools : List (List Bool)) (ints : List (List ℤ))
deriving DecidableEq, Repr

/-- Number of components of the output tuple. -/
def BackendOut.arity : BackendOut → ℕ
  | .basic _ _ _ => 3
  | .extended _ _ _ _ _ _ => 6

/-- `SimGroup._process_out`: destructure the tuple according to
`extended_output` (a length mismatch is a Python unpacking error, modelled
as `none`), store the raw extended buffers, and reshape BOLD to
`(N, -1, nodes)` and the FC/FCD triangles to `(N, -1)`. -/
def baseProcessOut (g : SimGroup) (out : BackendOut) : Option SimGroup := do
  let n ← g.paramN
  match g.extended_output, out with
  | true, .extended bold fc fcd st gb gi => do
    let b3 ← reshape3 n g.nodes bold
    let f2 ← reshape2 n fc
    let d2 ← reshape2 n fcd
    some { g with sim_states_raw := st, global_bools := gb, global_ints := gi,
                  sim_bold := b3, sim_fc_trils := f2, sim_fcd_trils := d2 }
  | false, .basic bold fc fcd => do
    let b3 ← reshape3 n g.nodes bold
    let f2 ← reshape2 n fc
    let d2 ← reshape2 n fcd
    some { g with sim_bold := b3, sim_fc_trils := f2, sim_fcd_trils := d2 }
  | _, _ => none

/-- State-variable naming table of the rWW variant. -/
def stateNamesRww : List String := ["I_E", "I_I", "r_E", "r_I", "S_E", "S_I"]

/-- The state-naming step of `rWWSimGroup._process_out`: under
`extended_output`, name the six state rows of the raw stacked buffer
(an `IndexError` if fewer rows exist), reshaping each row to
`(N, -1, nodes)` when per-timestep traces were requested. -/
def rwwNameStates (g1 : SimGroup) (n : ℕ) : Option SimGroup :=
  if g1.extended_output then
    if 6 ≤ g1.sim_states_raw.length then
      let raw := stateNamesRww.zip (g1.sim_states_raw.take 6)
      if g1.extended_output_ts then
        (raw.mapM (fun p => (reshape3 n g1.nodes p.2).map
          (fun c => (p.1, StateVal.cube c)))).map
          (fun cubes => { g1 with sim_states := cubes })
      else some { g1 with sim_states := raw.map (fun p => (p.1, StateVal.flat p.2)) }
    else none
  else some g1

/-- The FIC step of `rWWSimGroup._process_out`: under `do_fic`, extract the
two boolean stability-flag rows and the integer trial-counter row, and
overwrite `param_lists["wIE"]` with row 2 of the packed
regional-parameter array reshaped to `(N, -1)`. -/
def rwwFicExtract (g2 : SimGroup) (n : ℕ) : Option SimGroup :=
  if g2.do_fic then
    (reshape2 n (g2.regional_params.getD 2 [])).map (fun wm =>
      { g2 with
        fic_unstable := g2.global_bools.getD 0 []
        fic_failed := g2.global_bools.getD 1 []
        fic_ntrials := g2.global_ints.getD 0 []
        param_lists := (storeSet g2.param_lists "wIE" (some (NDArr.mat wm))) })
  else some g2

/-- `rWWSimGroup._process_out`: the base processing, then the state-naming
step, then the FIC extraction / `wIE` write-back. -/
def rwwProcessOut (g : SimGroup) (out : BackendOut) : Option SimGroup :=
  (baseProcessOut g out).bind (fun g1 =>
    g1.paramN.bind (fun n =>
      (rwwNameStates g1 n).bind (fun g2 => rwwFicExtract g2 n)))

/-- One row of the parameter stacking loops of `SimGroup.run`: compute the
row each parameter name contributes, in the declared order, and `np.vstack`
them (`none` models the error raised when a parameter is missing,
unpopulated, or — for a global parameter — not a 1-D `(N,)` array). -/
def packRows (f : String → Option (List ℚ)) : List String → Option (List (List ℚ))
  | [] => some []
  | p :: ps => (f p).bind (fun row => (packRows f ps).map (fun rest => row :: rest))

/-- The global-parameter packing of `SimGroup.run`: for each declared global
parameter name in order, `np.ascontiguousarray(arr)[np.newaxis, :]`, then
`np.vstack` — one row per name. -/
def packGlobals (names : List String) (pl : List (String × Option NDArr)) :
    Option (List (List ℚ)) :=
  packRows (fun p => ((pl.lookup p).join).bind NDArr.asVec) names

/-- The regional-parameter packing of `SimGroup.run`: for each declared
regional parameter name in order, `np.ascontiguousarray(arr.flatten())`,
then `np.vstack` — one row per name. -/
def packRegionals (names : List String) (pl : List (String × Option NDArr)) :
    Option (List (List ℚ)) :=
  packRows (fun p => ((pl.lookup p).join).map NDArr.flatten) names

/-- `np.ndarray.mean` of a 1-D array. -/
noncomputable def listMean (xs : List ℝ) : ℝ := xs.sum / xs.length

/-- `scipy.stats.pearsonr(x, y).statistic`, modelled from the library's
documented definition: sample Pearson correlation coefficient
`Σ (xᵢ - x̄)(yᵢ - ȳ) / √(Σ (xᵢ - x̄)² · Σ (yᵢ - ȳ)²)` (scipy is an external
collaborator of the layer under verification). -/
noncomputable def pearsonR (x y : List ℝ) : ℝ :=
  let mx := listMean x
  let my := listMean y
  ((x.zip y).map (fun p => (p.1 - mx) * (p.2 - my))).sum /
    Real.sqrt ((x.map (fun v => (v - mx) ^ 2)).sum * (y.map (fun v => (v - my) ^ 2)).sum)

/-- Empirical CDF of a sample at a point. -/
noncomputable def ecdf (xs : List ℝ) (t : ℝ) : ℝ :=
  ((xs.filter (fun v => decide (v ≤ t))).length : ℝ) / xs.length

/-- `scipy.stats.ks_2samp(a, b).statistic`, modelled from the library's
documented definition: the maximum distance between the two empirical
CDFs, attained at a sample point. -/
noncomputable def ksStat (a b : List ℝ) : ℝ :=
  ((a ++ b).map (fun t => |ecdf a t - ecdf b t|)).foldr max 0

/-- Modelled from the spec: `cuBNM.utils.fc_norm_euclidean` is not under
`src/`; per the spec it is the Euclidean distance between the two FC
lower triangles normalized by the maximum possible distance
`√(4 · n_pairs)`. -/
noncomputable def fcNormEuclidean (x y : List ℝ) : ℝ :=
  Real.sqrt (((x.zip y).map (fun p => (p.1 - p.2) ^ 2)).sum) /
    Real.sqrt (4 * x.length)

/-- One row of the scores DataFrame built by `SimGroup.score` (the rWW
subclass may additionally fill the `-fic_penalty` column). The `+gof`
cell is `Option`-valued: `none` models the `KeyError` raised when
`gof_terms` names a column that does not exist. -/
structure ScoreRow where
  fc_corr : ℝ
  fc_diff : ℝ
  fcd_ks : ℝ
  fcd_normec : ℝ
  gof : Option ℝ
  fic_pen : Option ℝ

/-- The `+gof` accumulation loop of `SimGroup.score`: starting from the
assigned `0`, add the named cell of the row for each term in order
(`"+gof"` reads the accumulator itself, any other unknown name is a
`KeyError`). -/
def gofFold (c d k e : ℝ) : List String → ℝ → Option ℝ
  | [], acc => some acc
  | t :: ts, acc =>
    if t = "+fc_corr" then gofFold c d k e ts (acc + c)
    else if t = "-fc_diff" then gofFold c d k e ts (acc + d)
    else if t = "-fcd_ks" then gofFold c d k e ts (acc + k)
    else if t = "-fc_normec" then gofFold c d k e ts (acc + e)
    else if t = "+gof" then gofFold c d k e ts (acc + acc)
    else none

/-- The signed value a term name denotes in one row of the scores table. -/
def termVal (c d k e : ℝ) (t : String) : ℝ :=
  if t = "+fc_corr" then c
  else if t = "-fc_diff" then d
  else if t = "-fcd_ks" then k
  else if t = "-fc_normec" then e
  else 0

/-- One iteration of the scoring loop of `SimGroup.score`:
`+fc_corr` is the Pearson correlation of the FC triangles, `-fc_diff` the
negated absolute difference of their means, `-fcd_ks` the negated KS
statistic of the FCD triangles, `-fc_normec` the negated normalized
Euclidean distance, and `+gof` the accumulated sum over `gof_terms`. -/
noncomputable def scoreRowBase (gof_terms : List String)
    (sim_fc sim_fcd emp_fc emp_fcd : List ℝ) : ScoreRow :=
  let c := pearsonR sim_fc emp_fc
  let d := -|listMean sim_fc - listMean emp_fc|
  let k := -(ksStat sim_fcd emp_fcd)
  let e := -(fcNormEuclidean sim_fc emp_fc)
  { fc_corr := c, fc_diff := d, fcd_ks := k, fcd_normec := e
    gof := gofFold c d k e gof_terms 0, fic_pen := none }

/-- Row `idx` of the simulated FC lower-triangle table, as reals. -/
noncomputable def simFCRow (g : SimGroup) (idx : ℕ) : List ℝ :=
  (g.sim_fc_trils.getD idx []).map (fun q => (q : ℝ))

/-- Row `idx` of the simulated FCD lower-triangle table, as reals. -/
noncomputable def simFCDRow (g : SimGroup) (idx : ℕ) : List ℝ :=
  (g.sim_fcd_trils.getD idx []).map (fun q => (q : ℝ))

/-- `SimGroup.score`: one `ScoreRow` per simulation index in
`range(self.N)`. -/
noncomputable def score (g : SimGroup) (emp_fc emp_fcd : List ℝ) : List ScoreRow :=
  (List.range (g.paramN.getD 0)).map
    (fun idx => scoreRowBase g.gof_terms (simFCRow g idx) (simFCDRow g idx) emp_fc emp_fcd)

/-- The `-fic_penalty` cell computed for one simulation by
`rWWSimGroup.score` (lines 699-708 of `sim.py`), given the per-region mean
excitatory firing rates of that simulation: absolute deviations from the
3 Hz target; if any deviation exceeds 1, deviations at most 1 are dropped
(`np.NaN` then `np.nansum`) and each remaining region contributes
`1 - exp(-0.05 * (deviation - 1))`; the sum is scaled by
`fic_penalty_scale / nodes` and negated; otherwise the cell is 0. -/
noncomputable def ficPenaltyRow (fic_penalty_scale : ℝ) (nodes : ℕ)
    (mean_r_E : List ℝ) : ℝ :=
  let diff := mean_r_E.map (fun r => |r - 3|)
  if diff.any (fun d => decide (1 < d)) then
    -((diff.map (fun d => if 1 < d then 1 - Real.exp (-0.05 * (d - 1)) else 0)).sum)
      * fic_penalty_scale / nodes
  else 0

/-- Per-region mean over the time axis of one simulation's
`(timepoints, nodes)` block: entry `j` of `cube.mean(axis=1)[idx]` is the
mean over `t` of `block[t][j]`. -/
noncomputable def meanAxis1Block (block : List (List ℚ)) : List ℝ :=
  (List.range ((block.getD 0 []).length)).map
    (fun j => listMean (block.map (fun row => ((row.getD j 0 : ℚ) : ℝ))))

/-- Lines 695-700 of `sim.py`: the derivation of `mean_r_E` followed by
the row access `mean_r_E[idx, :]` of the penalty loop.  When per-timestep
traces exist, `sim_states["r_E"]` is the `(N, timepoints, nodes)` cube
and `mean_r_E = cube.mean(axis=1)` has shape `(N, nodes)`, so the access
yields the per-region time-means of simulation `idx` (`none` for an
out-of-range `idx`, and for a flat array, on which `.mean(axis=1)` has no
axis to reduce).  Otherwise `mean_r_E` is the stored array itself — in
the demarshaled state the raw flat `(N*nodes,)` row, on which the 2-D
access `[idx, :]` raises `IndexError` (and a 3-D array could not produce
the scalar cell either), modelled as `none`. -/
noncomputable def rwwMeanRERow (g : SimGroup) (idx : ℕ) : Option (List ℝ) :=
  (g.sim_states.lookup "r_E").bind (fun sv =>
    if g.extended_output_ts then
      match sv with
      | StateVal.cube c => (getElem? c idx).map meanAxis1Block
      | StateVal.flat _ => none
    else none)

/-- The `-fic_penalty` cell of `rWWSimGroup.score` at one simulation
index: only computed when `self.do_fic & self.fic_penalty`, by applying
the penalty formula of lines 700-708 to `mean_r_E[idx, :]`, whose
derivation (lines 695-700, `rwwMeanRERow`) errors on the
non-timeseries path. -/
noncomputable def rwwFicPenaltyCol (g : SimGroup) (fic_penalty_scale : ℝ)
    (idx : ℕ) : Option ℝ :=
  if g.do_fic && g.fic_penalty then
    (rwwMeanRERow g idx).map (ficPenaltyRow fic_penalty_scale g.nodes)
  else none

/-- `rWWSimGroup._set_default_params`: literature defaults for `G`, `wEE`,
`wEI` (and `v` under delay), but `wIE` only when FIC is disabled. -/
def rwwSetDefaultParams (g : SimGroup) (n : ℕ) : SimGroup :=
  let pl0 := if g.do_delay then
    storeSet g.param_lists "v" (some (NDArr.vec (List.replicate n (1/2))))
    else g.param_lists
  let pl1 := storeSet pl0 "G" (some (NDArr.vec (List.replicate n (1/2))))
  let pl2 := storeSet pl1 "wEE" (some (NDArr.mat (List.replicate n (List.replicate g.nodes (21/100)))))
  let pl3 := storeSet pl2 "wEI" (some (NDArr.mat (List.replicate n (List.replicate g.nodes (15/100)))))
  let pl4 := if !g.do_fic then
    storeSet pl3 "wIE" (some (NDArr.mat (List.replicate n (List.replicate g.nodes 1))))
    else pl3
  { g with param_lists := pl4 }

/-- `rwwInit` without the `Except` wrapper: the pair it returns whenever the
node-count guards pass. -/
def rwwBuild (env : Env) (a : RWWArgs) : List Warn × SimGroup :=
  let p := simGroupBuild env Variant.rww a.do_fic a.max_fic_trials a.fic_penalty a.base
  let g1 := { p.2 with extended_output := p.2.extended_output || p.2.do_fic }
  if g1.serial_nodes then
    (p.1 ++ [Warn.serialNoFic], { g1 with max_fic_trials := 0 })
  else (p.1, g1)

/-- A successful base construction returns exactly `simGroupBuild`. -/
theorem initCore_ok {env : Env} {v : Variant} {f : Bool} {m : ℕ} {p : Bool}
    {a : SimGroupArgs} {wg : List Warn × SimGroup}
    (h : simGroupInitCore env v f m p a = Except.ok wg) :
    wg = simGroupBuild env v f m p a := by
  unfold simGroupInitCore at h
  simp only [] at h
  split at h
  · exact absurd h (by simp)
  · split at h
    · exact absurd h (by simp)
    · exact (Except.ok.injEq _ _).mp h.symm

/-- A successful rWW construction returns exactly `rwwBuild`. -/
theorem rwwInit_ok {env : Env} {a : RWWArgs} {wg : List Warn × SimGroup}
    (h : rwwInit env a = Except.ok wg) : wg = rwwBuild env a := by
  unfold rwwInit at h
  cases hc : simGroupInitCore env Variant.rww a.do_fic a.max_fic_trials a.fic_penalty a.base with
  | error e => rw [hc] at h; exact absurd h (by simp [Except.map])
  | ok q =>
    rw [hc] at h
    simp only [Except.map, Except.ok.injEq] at h
    rw [← h]
    have hq := initCore_ok hc
    subst hq
    rfl

/-- A successful rWWEx construction returns exactly the base build with the
rWWEx class attributes. -/
theorem rwwExInit_ok {env : Env} {a : SimGroupArgs} {wg : List Warn × SimGroup}
    (h : rwwExInit env a = Except.ok wg) :
    wg = simGroupBuild env Variant.rwwEx false 0 false a :=
  initCore_ok h

/-- A small CPU-only environment with a 2-node connectome, used for the
concrete instantiations below. -/
def envA : Env :=
  { gpu_enabled_flag := false, many_nodes_flag := false, max_nodes_reg := 200
    max_nodes_many := 500, avail_gpus := 0
    sc := [[0, 1], [1, 0]], sc_dist := [[0, 0], [0, 0]] }

/-- Concrete base constructor arguments (everything else defaulted). -/
def baseArgsA : SimGroupArgs := { duration := 10, TR := 1, sc_path := "sc.txt" }

/-- Concrete rWW constructor arguments with the Python defaults. -/
def rwwArgsA : RWWArgs := { base := baseArgsA }

/-- A concretely constructed `rWWExSimGroup`. -/
def grpRwwEx : SimGroup :=
  (((rwwExInit envA baseArgsA).toOption).map Prod.snd).get (by decide)

/-- A concretely constructed `rWWSimGroup` (FIC enabled, defaults). -/
def grpRww : SimGroup :=
  (((rwwInit envA rwwArgsA).toOption).map Prod.snd).get (by decide)

theorem lookup_map_replace (pl : List (String × Option NDArr)) (k : String)
    (v : Option NDArr) (k2 : String) (hne : k2 ≠ k) :
    (pl.map (fun p => if p.1 == k then (k, v) else p)).lookup k2 = pl.lookup k2 := by
  induction pl with
  | nil => rfl
  | cons p ps ih =>
    obtain ⟨pk, pv⟩ := p
    by_cases hp : pk = k
    · subst hp
      simp only [List.map_cons, beq_self_eq_true, if_pos, List.lookup_cons]
      rw [beq_false_of_ne hne]
      exact ih
    · have hb : (pk == k) = false := beq_false_of_ne hp
      simp only [List.map_cons, hb, Bool.false_eq_true, if_false, List.lookup_cons]
      cases hk : k2 == pk
      · exact ih
      · rfl

theorem lookup_map_replace_self (pl : List (String × Option NDArr)) (k : String)
    (v : Option NDArr) (hany : (pl.any (fun p => p.1 == k)) = true) :
    (pl.map (fun p => if p.1 == k then (k, v) else p)).lookup k = some v := by
  induction pl with
  | nil => simp at hany
  | cons p ps ih =>
    obtain ⟨pk, pv⟩ := p
    by_cases hp : pk = k
    · subst hp
      simp [List.lookup_cons]
    · have hb : (pk == k) = false := beq_false_of_ne hp
      simp only [List.any_cons, hb, Bool.false_or] at hany
      have hb2 : (k == pk) = false := beq_false_of_ne (fun he => hp he.symm)
      simp only [List.map_cons, hb, Bool.false_eq_true, if_false, List.lookup_cons, hb2]
      exact ih hany

theorem lookup_storeSet_self (pl : List (String × Option NDArr)) (k : String)
    (v : Option NDArr) : (storeSet pl k v).lookup k = some v := by
  unfold storeSet
  split
  · rename_i hany
    exact lookup_map_replace_self pl k v hany
  · rename_i hany
    have hnone : pl.lookup k = none := by
      rw [List.lookup_eq_none_iff]
      intro p hp
      rw [bne_iff_ne]
      intro he
      exact hany (List.any_eq_true.mpr ⟨p, hp, by rw [he]; exact beq_self_eq_true p.1⟩)
    rw [List.lookup_append, hnone, Option.none_or]
    simp [List.lookup_cons]

theorem lookup_storeSet_ne (pl : List (String × Option NDArr)) (k : String)
    (v : Option NDArr) (k2 : String) (hne : k2 ≠ k) :
    (storeSet pl k v).lookup k2 = pl.lookup k2 := by
  unfold storeSet
  split
  · exact lookup_map_replace pl k v k2 hne
  · rw [List.lookup_append]
    have h1 : ([(k, v)] : List (String × Option NDArr)).lookup k2 = none := by
      simp [List.lookup_cons, beq_false_of_ne hne]
    rw [h1, Option.or_none]

/-- Field-level description of the group built by the base constructor, in
terms of the caller-supplied arguments. -/
theorem simGroupBuild_fields (env : Env) (v : Variant) (f : Bool) (m : ℕ)
    (p : Bool) (a : SimGroupArgs) :
    let g := (simGroupBuild env v f m p a).2
    g.variant = v ∧ g.duration = a.duration ∧ g.TR = a.TR ∧
    g.sc_path = a.sc_path ∧ g.sc_dist_path = a.sc_dist_path ∧
    g.extended_output = a.extended_output ∧
    g.extended_output_ts = (a.extended_output && a.extended_output_ts) ∧
    g.window_size = a.window_size ∧ g.window_step = a.window_step ∧
    g.rand_seed = a.rand_seed ∧
    g.exc_interhemispheric = a.exc_interhemispheric ∧
    g.force_cpu = a.force_cpu ∧ g.serial_nodes = a.serial_nodes ∧
    g.gof_terms = a.gof_terms ∧ g.bw_params = a.bw_params ∧
    g.bold_remove_s = a.bold_remove_s ∧
    g.fcd_drop_edges = a.fcd_drop_edges ∧
    g.noise_segment_length = a.noise_segment_length.getD a.duration ∧
    g.sim_verbose = a.sim_verbose ∧
    g.progress_interval = a.progress_interval ∧
    g.nodes = env.sc.length ∧
    g.do_delay = a.sc_dist_path.isSome ∧
    g.out_dir = (if a.out_dir = "same" then a.sc_path.replace ".txt" "" else a.out_dir) ∧
    g.param_lists = ((globalParamNames v ++ regionalParamNames v ++ ["v"]).map
      (fun k => (k, (none : Option NDArr)))) ∧
    g.last_N = 0 ∧ g.it = 0 ∧ g.paramN = none ∧
    g.do_fic = f ∧ g.max_fic_trials = m ∧ g.fic_penalty = p := by
  refine ⟨rfl, rfl, rfl, rfl, rfl, rfl, rfl, rfl, rfl, rfl, rfl, rfl, rfl, rfl,
    rfl, rfl, rfl, rfl, rfl, rfl, rfl, rfl, rfl, rfl, rfl, rfl, rfl, rfl, rfl, rfl⟩

/-- The `last_config` snapshot the base constructor stores is exactly the
`for_reinit` config of the group it builds, except that the snapshot was
taken with the pre-coercion `extended_output` and `max_fic_trials` (for the
rWW variant the subclass mutates those after the snapshot). -/
theorem simGroupBuild_last_config (env : Env) (v : Variant) (f : Bool) (m : ℕ)
    (p : Bool) (a : SimGroupArgs) :
    (simGroupBuild env v f m p a).2.last_config =
      getConfig (simGroupBuild env v f m p a).2 false true := by
  rfl

/-- Field-level description of `rwwBuild` relative to the base build. -/
theorem rwwBuild_snd (env : Env) (a : RWWArgs) :
    (rwwBuild env a).2 =
      (let g1 := { (simGroupBuild env Variant.rww a.do_fic a.max_fic_trials
                      a.fic_penalty a.base).2 with
                   extended_output :=
                     (simGroupBuild env Variant.rww a.do_fic a.max_fic_trials
                        a.fic_penalty a.base).2.extended_output || a.do_fic }
       if g1.serial_nodes then { g1 with max_fic_trials := 0 } else g1) := by
  unfold rwwBuild
  dsimp only
  split <;> rfl

/-- All fields of the rWW-constructed group that neither the
`extended_output` coercion nor the serial-mode forcing touches agree with
the base build. -/
theorem rwwBuild_untouched (env : Env) (a : RWWArgs) :
    let g := (rwwBuild env a).2
    let b := (simGroupBuild env Variant.rww a.do_fic a.max_fic_trials
                a.fic_penalty a.base).2
    g.variant = b.variant ∧ g.duration = b.duration ∧ g.TR = b.TR ∧
    g.sc_path = b.sc_path ∧ g.sc_dist_path = b.sc_dist_path ∧
    g.extended_output_ts = b.extended_output_ts ∧
    g.window_size = b.window_size ∧ g.window_step = b.window_step ∧
    g.rand_seed = b.rand_seed ∧
    g.exc_interhemispheric = b.exc_interhemispheric ∧
    g.force_cpu = b.force_cpu ∧ g.serial_nodes = b.serial_nodes ∧
    g.gof_terms = b.gof_terms ∧ g.bw_params = b.bw_params ∧
    g.bold_remove_s = b.bold_remove_s ∧
    g.fcd_drop_edges = b.fcd_drop_edges ∧
    g.noise_segment_length = b.noise_segment_length ∧
    g.sim_verbose = b.sim_verbose ∧
    g.progress_interval = b.progress_interval ∧
    g.nodes = b.nodes ∧ g.do_delay = b.do_delay ∧ g.out_dir = b.out_dir ∧
    g.param_lists = b.param_lists ∧ g.last_N = b.last_N ∧
    g.last_config = b.last_config ∧ g.it = b.it ∧ g.paramN = b.paramN ∧
    g.do_fic = b.do_fic ∧ g.fic_penalty = b.fic_penalty := by
  unfold rwwBuild
  dsimp only
  split <;>
    exact ⟨rfl, rfl, rfl, rfl, rfl, rfl, rfl, rfl, rfl, rfl, rfl, rfl, rfl, rfl,
      rfl, rfl, rfl, rfl, rfl, rfl, rfl, rfl, rfl, rfl, rfl, rfl, rfl, rfl, rfl⟩

/-- The rWW constructor coerces `extended_output` with `do_fic`. -/
theorem rwwBuild_extended_output (env : Env) (a : RWWArgs) :
    (rwwBuild env a).2.extended_output = (a.base.extended_output || a.do_fic) := by
  unfold rwwBuild
  dsimp only
  split <;> rfl

/-- The rWW constructor forces `max_fic_trials` to 0 exactly in
`serial_nodes` mode. -/
theorem rwwBuild_max_fic_trials (env : Env) (a : RWWArgs) :
    (rwwBuild env a).2.max_fic_trials =
      (if a.base.serial_nodes then 0 else a.max_fic_trials) := by
  unfold rwwBuild
  dsimp only
  split
  · rename_i hs
    have hs2 : a.base.serial_nodes = true := hs
    rw [hs2]
    rfl
  · rename_i hs
    have hs2 : ¬(a.base.serial_nodes = true) := hs
    rw [if_neg hs2]
    rfl

/-- The rWW constructor appends the serial-mode warning exactly in
`serial_nodes` mode. -/
theorem rwwBuild_warns (env : Env) (a : RWWArgs) :
    (rwwBuild env a).1 =
      (simGroupBuild env Variant.rww a.do_fic a.max_fic_trials a.fic_penalty a.base).1 ++
        (if a.base.serial_nodes then [Warn.serialNoFic] else []) := by
  unfold rwwBuild
  dsimp only
  split
  · rename_i hs
    have hs2 : a.base.serial_nodes = true := hs
    rw [hs2]
    rfl
  · rename_i hs
    have hs2 : ¬(a.base.serial_nodes = true) := hs
    rw [if_neg hs2]
    simp

/-- Concrete rWW constructor arguments with `extended_output = False`
supplied while FIC is enabled. -/
def rwwArgsNoExt : RWWArgs := { base := { baseArgsA with extended_output := false } }

/-- The warnings of the concrete rWW construction with
`extended_output = False`. -/
def wsRwwNoExt : List Warn :=
  (((rwwInit envA rwwArgsNoExt).toOption).map Prod.fst).get (by decide)

/-- The group of the concrete rWW construction with
`extended_output = False`. -/
def grpRwwNoExt : SimGroup :=
  (((rwwInit envA rwwArgsNoExt).toOption).map Prod.snd).get (by decide)

/-- The warnings of the default concrete rWW construction. -/
def wsRww : List Warn :=
  (((rwwInit envA rwwArgsA).toOption).map Prod.fst).get (by decide)

/-- The warnings of the default concrete rWWEx construction. -/
def wsRwwEx : List Warn :=
  (((rwwExInit envA baseArgsA).toOption).map Prod.fst).get (by decide)

/-- C10: constructing an `rWWSimGroup` with `do_fic = True` forces
`extended_output = True` even when the caller passed
`extended_output = False`, so every FIC-enabled batch requests the
6-element extended backend output. -/
theorem rww_do_fic_forces_extended_output (env : Env) (a : RWWArgs)
    (ws : List Warn) (g : SimGroup) (hfic : a.do_fic = true)
    (h : rwwInit env a = Except.ok (ws, g)) : g.extended_output = true := by
  have hg : g = (rwwBuild env a).2 := congrArg Prod.snd (rwwInit_ok h)
  rw [hg, rwwBuild_extended_output, hfic, Bool.or_true]

/-- Witness for C10 at a concrete construction that supplied
`extended_output = False` with FIC enabled. -/
theorem rww_do_fic_forces_extended_output_witness :
    rwwArgsNoExt.base.extended_output = false ∧ grpRwwNoExt.extended_output = true :=
  ⟨rfl, rww_do_fic_forces_extended_output envA rwwArgsNoExt wsRwwNoExt grpRwwNoExt rfl rfl⟩

/-- C9: in every constructed group (both variants),
`extended_output_ts` is coerced at construction to the conjunction of the
caller-supplied `extended_output` and `extended_output_ts`, and
consequently `extended_output_ts = true` implies `extended_output = true`
after construction. -/
theorem extended_output_ts_implies_extended_output :
    (∀ (env : Env) (a : RWWArgs) (ws : List Warn) (g : SimGroup),
      rwwInit env a = Except.ok (ws, g) →
      g.extended_output_ts = (a.base.extended_output && a.base.extended_output_ts) ∧
      (g.extended_output_ts = true → g.extended_output = true)) ∧
    (∀ (env : Env) (a : SimGroupArgs) (ws : List Warn) (g : SimGroup),
      rwwExInit env a = Except.ok (ws, g) →
      g.extended_output_ts = (a.extended_output && a.extended_output_ts) ∧
      (g.extended_output_ts = true → g.extended_output = true)) := by
  constructor
  · intro env a ws g h
    have hg : g = (rwwBuild env a).2 := congrArg Prod.snd (rwwInit_ok h)
    have hts : (rwwBuild env a).2.extended_output_ts =
        (a.base.extended_output && a.base.extended_output_ts) := by
      unfold rwwBuild
      dsimp only
      split <;> rfl
    constructor
    · rw [hg]
      exact hts
    · intro hts2
      rw [hg] at hts2
      rw [hts, Bool.and_eq_true] at hts2
      rw [hg, rwwBuild_extended_output, hts2.1, Bool.true_or]
  · intro env a ws g h
    have hg : g = (simGroupBuild env Variant.rwwEx false 0 false a).2 :=
      congrArg Prod.snd (rwwExInit_ok h)
    have hts : (simGroupBuild env Variant.rwwEx false 0 false a).2.extended_output_ts =
        (a.extended_output && a.extended_output_ts) := rfl
    constructor
    · rw [hg]
      exact hts
    · intro hts2
      rw [hg] at hts2
      rw [hts, Bool.and_eq_true] at hts2
      rw [hg]
      show a.extended_output = true
      exact hts2.1

/-- Witness for C9 at concrete constructions of both variants. -/
theorem extended_output_ts_implies_extended_output_witness :
    (grpRww.extended_output_ts =
      (rwwArgsA.base.extended_output && rwwArgsA.base.extended_output_ts)) ∧
    (grpRwwEx.extended_output_ts =
      (baseArgsA.extended_output && baseArgsA.extended_output_ts)) :=
  ⟨(extended_output_ts_implies_extended_output.1 envA rwwArgsA wsRww grpRww rfl).1,
   (extended_output_ts_implies_extended_output.2 envA baseArgsA wsRwwEx grpRwwEx rfl).1⟩

/-- C8: whenever delay is disabled, every assignment of `N` forces the
velocity parameter to the all-zero array of shape `(N,)`; constructing
either variant without a distance-matrix path disables delay. -/
theorem velocity_forced_zero_without_distance_matrix :
    (∀ (g : SimGroup) (n : ℕ), g.do_delay = false →
      ((setN g n).param_lists.lookup "v") =
        some (some (NDArr.vec (List.replicate n 0)))) ∧
    (∀ (env : Env) (a : SimGroupArgs) (ws : List Warn) (g : SimGroup),
      a.sc_dist_path = none → rwwExInit env a = Except.ok (ws, g) →
      g.do_delay = false) ∧
    (∀ (env : Env) (a : RWWArgs) (ws : List Warn) (g : SimGroup),
      a.base.sc_dist_path = none → rwwInit env a = Except.ok (ws, g) →
      g.do_delay = false) := by
  refine ⟨?_, ?_, ?_⟩
  · intro g n hd
    unfold setN
    dsimp only
    rw [show ({ g with paramN := some n } : SimGroup).do_delay = false from hd]
    rw [if_pos (show (!false) = true from rfl)]
    split
    · rw [lookup_storeSet_ne _ _ _ _ (by decide)]
      exact lookup_storeSet_self _ _ _
    · exact lookup_storeSet_self _ _ _
  · intro env a ws g hdist h
    have hg : g = (simGroupBuild env Variant.rwwEx false 0 false a).2 :=
      congrArg Prod.snd (rwwExInit_ok h)
    rw [hg]
    show a.sc_dist_path.isSome = false
    rw [hdist]
    rfl
  · intro env a ws g hdist h
    have hg : g = (rwwBuild env a).2 := congrArg Prod.snd (rwwInit_ok h)
    have hdd : (rwwBuild env a).2.do_delay = a.base.sc_dist_path.isSome := by
      unfold rwwBuild
      dsimp only
      split <;> rfl
    rw [hg, hdd, hdist]
    rfl

/-- Witness for C8: a concrete no-distance-matrix construction with
`N = 2`. -/
theorem velocity_forced_zero_without_distance_matrix_witness :
    grpRwwEx.do_delay = false ∧
    ((setN grpRwwEx 2).param_lists.lookup "v") =
      some (some (NDArr.vec (List.replicate 2 0))) :=
  ⟨by decide,
   velocity_forced_zero_without_distance_matrix.1 grpRwwEx 2 (by decide)⟩

/-- `SimGroup._process_out` only assigns output attributes: the parameter
store, the batch size and the configuration fields are untouched. -/
theorem baseProcessOut_preserves {g g1 : SimGroup} {out : BackendOut}
    (h : baseProcessOut g out = some g1) :
    g1.paramN = g.paramN ∧ g1.do_fic = g.do_fic ∧
    g1.regional_params = g.regional_params ∧
    g1.param_lists = g.param_lists ∧ g1.extended_output = g.extended_output ∧
    g1.extended_output_ts = g.extended_output_ts ∧ g1.nodes = g.nodes := by
  unfold baseProcessOut at h
  cases hN : g.paramN with
  | none =>
    rw [hN] at h
    exact Option.noConfusion h
  | some n =>
    rw [hN] at h
    rw [Option.bind_eq_bind, Option.some_bind] at h
    split at h
    · rcases Option.bind_eq_some.mp h with ⟨b3, hb3, h2⟩
      rcases Option.bind_eq_some.mp h2 with ⟨f2, hf2, h3⟩
      rcases Option.bind_eq_some.mp h3 with ⟨d2, hd2, h4⟩
      injection h4 with h5
      subst h5
      exact ⟨rfl, rfl, rfl, rfl, rfl, rfl, rfl⟩
    · rcases Option.bind_eq_some.mp h with ⟨b3, hb3, h2⟩
      rcases Option.bind_eq_some.mp h2 with ⟨f2, hf2, h3⟩
      rcases Option.bind_eq_some.mp h3 with ⟨d2, hd2, h4⟩
      injection h4 with h5
      subst h5
      exact ⟨rfl, rfl, rfl, rfl, rfl, rfl, rfl⟩
    · exact Option.noConfusion h

/-- C6: the FIC variant never defaults `wIE`: (i) assigning `N` with
`do_fic` enabled zero-initializes `wIE` to shape `(N, nodes)`;
(ii) the demarshaler then overwrites `param_lists["wIE"]` with row 2 of
the packed regional-parameter array, reshaped to `(N, -1)`;
(iii) `_set_default_params` leaves `wIE` untouched when `do_fic` is
enabled. -/
theorem fic_wIE_zero_init_and_writeback :
    (∀ (g : SimGroup) (n : ℕ), g.variant = Variant.rww → g.do_fic = true →
      ((setN g n).param_lists.lookup "wIE") =
        some (some (NDArr.mat (List.replicate n (List.replicate g.nodes 0))))) ∧
    (∀ (g gOut : SimGroup) (out : BackendOut) (n : ℕ),
      g.do_fic = true → g.paramN = some n →
      rwwProcessOut g out = some gOut →
      ∃ wm, reshape2 n (g.regional_params.getD 2 []) = some wm ∧
        (gOut.param_lists.lookup "wIE") = some (some (NDArr.mat wm))) ∧
    (∀ (g : SimGroup) (n : ℕ), g.do_fic = true →
      ((rwwSetDefaultParams g n).param_lists.lookup "wIE") =
        g.param_lists.lookup "wIE") := by
  refine ⟨?_, ?_, ?_⟩
  · intro g n hv hfic
    unfold setN
    dsimp only
    split
    · split
      · exact lookup_storeSet_self _ _ _
      · rename_i hc
        exact absurd ⟨hv, hfic⟩ hc
    · split
      · exact lookup_storeSet_self _ _ _
      · rename_i hc
        exact absurd ⟨hv, hfic⟩ hc
  · intro g gOut out n hfic hn hpo
    unfold rwwProcessOut at hpo
    rcases Option.bind_eq_some.mp hpo with ⟨g1, hbase, h2⟩
    obtain ⟨hpn, hdf, hrp, _, _, _, _⟩ := baseProcessOut_preserves hbase
    rcases Option.bind_eq_some.mp h2 with ⟨n1, hn1, h3⟩
    have hn1v : n1 = n := by
      rw [hpn, hn] at hn1
      exact (Option.some.injEq _ _).mp hn1.symm
    subst hn1v
    rcases Option.bind_eq_some.mp h3 with ⟨gmid, hmid, h4⟩
    have hgm : gmid.do_fic = g.do_fic ∧ gmid.regional_params = g.regional_params ∧
        gmid.param_lists = g.param_lists := by
      unfold rwwNameStates at hmid
      split at hmid
      · split at hmid
        · split at hmid
          · rcases Option.map_eq_some'.mp hmid with ⟨cubes, hcubes, h5⟩
            rw [← h5]
            exact ⟨hdf, hrp, by
              show g1.param_lists = g.param_lists
              obtain ⟨_, _, _, hpl, _, _, _⟩ := baseProcessOut_preserves hbase
              exact hpl⟩
          · injection hmid with h5
            rw [← h5]
            exact ⟨hdf, hrp, by
              show g1.param_lists = g.param_lists
              obtain ⟨_, _, _, hpl, _, _, _⟩ := baseProcessOut_preserves hbase
              exact hpl⟩
        · exact Option.noConfusion hmid
      · injection hmid with h5
        rw [← h5]
        exact ⟨hdf, hrp, by
          obtain ⟨_, _, _, hpl, _, _, _⟩ := baseProcessOut_preserves hbase
          exact hpl⟩
    unfold rwwFicExtract at h4
    rw [show gmid.do_fic = true from hgm.1.trans hfic] at h4
    rw [if_pos rfl] at h4
    rcases Option.map_eq_some'.mp h4 with ⟨wm, hwm, h5⟩
    rw [← h5]
    refine ⟨wm, ?_, lookup_storeSet_self _ _ _⟩
    rw [← hgm.2.1]
    exact hwm
  · intro g n hfic
    unfold rwwSetDefaultParams
    dsimp only
    rw [hfic]
    rw [if_neg (show ¬((!true : Bool) = true) from by simp)]
    rw [lookup_storeSet_ne _ _ _ _ (by decide), lookup_storeSet_ne _ _ _ _ (by decide),
      lookup_storeSet_ne _ _ _ _ (by decide)]
    split
    · rw [lookup_storeSet_ne _ _ _ _ (by decide)]
    · rfl

/-- A concrete FIC-enabled group with `N = 1` assigned and a packed
regional-parameter array in place (as after the packing step of `run`,
with the backend having finalized row 2). -/
def c6Group : SimGroup :=
  { (setN grpRww 1) with regional_params := [[1], [1], [5, 6]] }

/-- A well-shaped extended backend output tuple for `c6Group`. -/
def c6Out : BackendOut :=
  BackendOut.extended [0, 0] [0] [0]
    [[1, 2], [1, 2], [3, 3], [0, 0], [0, 0], [0, 0]] [[false], [false]] [[0]]

/-- The group after demarshaling `c6Out`. -/
def c6After : SimGroup := (rwwProcessOut c6Group c6Out).get (by decide)

/-- Witness for C6 at the concrete FIC-enabled construction. -/
theorem fic_wIE_zero_init_and_writeback_witness :
    ((setN grpRww 1).param_lists.lookup "wIE") =
      some (some (NDArr.mat (List.replicate 1 (List.replicate grpRww.nodes 0)))) ∧
    (∃ wm, reshape2 1 (c6Group.regional_params.getD 2 []) = some wm ∧
      (c6After.param_lists.lookup "wIE") = some (some (NDArr.mat wm))) ∧
    ((rwwSetDefaultParams grpRww 1).param_lists.lookup "wIE") =
      grpRww.param_lists.lookup "wIE" :=
  ⟨fic_wIE_zero_init_and_writeback.1 grpRww 1 (by decide) (by decide),
   fic_wIE_zero_init_and_writeback.2.1 c6Group c6After c6Out 1 (by decide) (by decide) rfl,
   fic_wIE_zero_init_and_writeback.2.2 grpRww 1 (by decide)⟩

/-- A concretely constructed group right after a completed `run` with
`N = 1`: the config cache is clean. -/
def c1Clean : SimGroup := runBookkeeping (setN grpRwwEx 1) 1

/-- Counterexample to C1 as stated: after a clean run, toggling only the
extended-output flag — an output-shaping field according to the claim —
flips the reinit decision to dirty, because `get_config(for_reinit=True)`
includes `extended_output` in the snapshot.  (The pre-toggle decision is
clean, so the toggle alone causes the dirty decision.) -/
theorem reinit_extended_output_toggle_is_dirty :
    reinitDecision c1Clean false = some false ∧
    reinitDecision { c1Clean with extended_output := false } false = some true :=
  ⟨by decide, by decide⟩

/-- C1 (amended): the reinit decision is dirty iff the caller requested it,
or `N` differs from the last run, or the `for_reinit` config snapshot —
which includes the extended-output toggles but excludes the output
directory and the scoring-term selection — differs from the one taken at
the last run; in particular changing only `out_dir` / `gof_terms` never
changes the snapshot, and an unchanged `N` and snapshot give a clean
decision. -/
theorem reinitDecision_characterization :
    (∀ (g : SimGroup) (force : Bool) (n : ℕ), g.paramN = some n →
      reinitDecision g force =
        some (force || decide (n ≠ g.last_N) ||
          decide (getConfig g false true ≠ g.last_config))) ∧
    (∀ (g : SimGroup) (d : String) (ts : List String),
      getConfig { g with out_dir := d, gof_terms := ts } false true =
        getConfig g false true) ∧
    (∀ (g : SimGroup) (n : ℕ), g.paramN = some n → n = g.last_N →
      getConfig g false true = g.last_config →
      reinitDecision g false = some false) := by
  refine ⟨?_, ?_, ?_⟩
  · intro g force n h
    unfold reinitDecision
    rw [h]
    rfl
  · intro g d ts
    rfl
  · intro g n h hN hcfg
    unfold reinitDecision
    rw [h]
    subst hN
    simp [hcfg]

/-- Witness for the amended C1 at the concrete clean group. -/
theorem reinitDecision_characterization_witness :
    (reinitDecision c1Clean false =
      some (false || decide ((1 : ℕ) ≠ c1Clean.last_N) ||
        decide (getConfig c1Clean false true ≠ c1Clean.last_config))) ∧
    reinitDecision c1Clean false = some false :=
  ⟨reinitDecision_characterization.1 c1Clean false 1 rfl,
   reinitDecision_characterization.2.2 c1Clean 1 rfl rfl rfl⟩

/-- Concrete rWW arguments combining per-node-serial execution with
numerical FIC stabilization trials, and `extended_output = False`
supplied. -/
def c7Args : RWWArgs :=
  { base := { baseArgsA with serial_nodes := true, extended_output := false } }

/-- Warnings of the concrete serial-mode construction. -/
def c7Ws : List Warn :=
  (((rwwInit envA c7Args).toOption).map Prod.fst).get (by decide)

/-- Group of the concrete serial-mode construction. -/
def c7Grp : SimGroup :=
  (((rwwInit envA c7Args).toOption).map Prod.snd).get (by decide)

/-- Counterexample to C7 as stated: the serial + trials construction does
succeed, warn, and force `max_fic_trials = 0` — but not every other
configuration field is left as supplied: with `do_fic = True` (the
default) the constructor also coerces `extended_output` from the supplied
`False` to `True`. -/
theorem serial_trials_keeps_other_fields_counterexample :
    c7Args.base.serial_nodes = true ∧ c7Args.max_fic_trials = 5 ∧
    c7Args.base.extended_output = false ∧
    rwwInit envA c7Args = Except.ok (c7Ws, c7Grp) ∧
    Warn.serialNoFic ∈ c7Ws ∧ c7Grp.max_fic_trials = 0 ∧
    c7Grp.extended_output = true :=
  ⟨rfl, rfl, rfl, rfl, by decide, rfl, rfl⟩

/-- C7 (amended): constructing an `rWWSimGroup` with per-node-serial
execution enabled together with numerical FIC stabilization trials does
not fail (for node counts within the compiled capacity): it emits the
explicit serial-mode warning and forces `max_fic_trials = 0`, and every
other configuration field is left as the caller supplied it apart from
the extended-output coercions performed on every rWW construction
(`extended_output |= do_fic` and
`extended_output_ts = extended_output && extended_output_ts`). -/
theorem serial_trials_forced_zero (env : Env) (a : RWWArgs)
    (hserial : a.base.serial_nodes = true)
    (hnodes : env.sc.length ≤ env.max_nodes_reg) :
    ∃ ws g, rwwInit env a = Except.ok (ws, g) ∧ Warn.serialNoFic ∈ ws ∧
      g.max_fic_trials = 0 ∧
      g.duration = a.base.duration ∧ g.TR = a.base.TR ∧
      g.sc_path = a.base.sc_path ∧ g.sc_dist_path = a.base.sc_dist_path ∧
      g.window_size = a.base.window_size ∧ g.window_step = a.base.window_step ∧
      g.rand_seed = a.base.rand_seed ∧
      g.exc_interhemispheric = a.base.exc_interhemispheric ∧
      g.force_cpu = a.base.force_cpu ∧ g.serial_nodes = true ∧
      g.gof_terms = a.base.gof_terms ∧ g.bw_params = a.base.bw_params ∧
      g.bold_remove_s = a.base.bold_remove_s ∧
      g.fcd_drop_edges = a.base.fcd_drop_edges ∧
      g.noise_segment_length = a.base.noise_segment_length.getD a.base.duration ∧
      g.sim_verbose = a.base.sim_verbose ∧
      g.progress_interval = a.base.progress_interval ∧
      g.do_fic = a.do_fic ∧ g.fic_penalty = a.fic_penalty ∧
      g.extended_output = (a.base.extended_output || a.do_fic) ∧
      g.extended_output_ts = (a.base.extended_output && a.base.extended_output_ts) := by
  have hcore : simGroupInitCore env Variant.rww a.do_fic a.max_fic_trials
      a.fic_penalty a.base =
      Except.ok (simGroupBuild env Variant.rww a.do_fic a.max_fic_trials
        a.fic_penalty a.base) := by
    unfold simGroupInitCore
    dsimp only
    rw [if_neg (fun hc => absurd hc.1 (Nat.not_lt.mpr hnodes)),
      if_neg (fun hc => absurd hc.1 (Nat.not_lt.mpr hnodes))]
  have hinit : rwwInit env a = Except.ok (rwwBuild env a) := by
    unfold rwwInit
    rw [hcore]
    rfl
  have hwarn : Warn.serialNoFic ∈ (rwwBuild env a).1 := by
    rw [rwwBuild_warns, hserial]
    simp
  have htrials : (rwwBuild env a).2.max_fic_trials = 0 := by
    rw [rwwBuild_max_fic_trials, hserial]
    simp
  refine ⟨(rwwBuild env a).1, (rwwBuild env a).2, hinit, hwarn, htrials, ?_⟩
  obtain ⟨_, hdur, hTR, hscp, hsdp, hts, hws, hwst, hrs, hexc, hfc, hser, hgt,
    hbw, hbrs, hfde, hnsl, hsv, hpi, _, _, _, _, _, _, _, _, hdf, hfp⟩ :=
    rwwBuild_untouched env a
  exact ⟨hdur, hTR, hscp, hsdp, hws, hwst, hrs, hexc, hfc, hser.trans hserial,
    hgt, hbw, hbrs, hfde, hnsl, hsv, hpi, hdf, hfp,
    rwwBuild_extended_output env a, hts⟩

/-- Witness for the amended C7 at the concrete serial-mode construction. -/
theorem serial_trials_forced_zero_witness :
    ∃ ws g, rwwInit envA c7Args = Except.ok (ws, g) ∧ Warn.serialNoFic ∈ ws ∧
      g.max_fic_trials = 0 ∧
      g.duration = c7Args.base.duration ∧ g.TR = c7Args.base.TR ∧
      g.sc_path = c7Args.base.sc_path ∧ g.sc_dist_path = c7Args.base.sc_dist_path ∧
      g.window_size = c7Args.base.window_size ∧ g.window_step = c7Args.base.window_step ∧
      g.rand_seed = c7Args.base.rand_seed ∧
      g.exc_interhemispheric = c7Args.base.exc_interhemispheric ∧
      g.force_cpu = c7Args.base.force_cpu ∧ g.serial_nodes = true ∧
      g.gof_terms = c7Args.base.gof_terms ∧ g.bw_params = c7Args.base.bw_params ∧
      g.bold_remove_s = c7Args.base.bold_remove_s ∧
      g.fcd_drop_edges = c7Args.base.fcd_drop_edges ∧
      g.noise_segment_length =
        c7Args.base.noise_segment_length.getD c7Args.base.duration ∧
      g.sim_verbose = c7Args.base.sim_verbose ∧
      g.progress_interval = c7Args.base.progress_interval ∧
      g.do_fic = c7Args.do_fic ∧ g.fic_penalty = c7Args.fic_penalty ∧
      g.extended_output = (c7Args.base.extended_output || c7Args.do_fic) ∧
      g.extended_output_ts =
        (c7Args.base.extended_output && c7Args.base.extended_output_ts) :=
  serial_trials_forced_zero envA c7Args rfl (by decide)

theorem packRows_spec (f : String → Option (List ℚ)) :
    ∀ (names : List String), (∀ p ∈ names, ∃ y, f p = some y) →
      ∃ ys, packRows f names = some ys ∧ ys.length = names.length ∧
        ∀ i (hi : i < names.length), ys[i]? = f (names.get ⟨i, hi⟩) := by
  intro names
  induction names with
  | nil =>
    intro _
    exact ⟨[], rfl, rfl, fun i hi => absurd hi (Nat.not_lt_zero i)⟩
  | cons p ps ih =>
    intro h
    obtain ⟨y, hy⟩ := h p (List.mem_cons_self p ps)
    obtain ⟨ys, hys, hlen, hidx⟩ := ih (fun q hq => h q (List.mem_cons_of_mem p hq))
    refine ⟨y :: ys, ?_, ?_, ?_⟩
    · unfold packRows
      rw [hy, hys]
      rfl
    · simp [hlen]
    · intro i hi
      match i with
      | 0 => simpa using hy.symm
      | Nat.succ j =>
        have hj : j < ps.length := Nat.lt_of_succ_lt_succ hi
        simpa using hidx j hj

theorem packRows_congr (f f2 : String → Option (List ℚ)) :
    ∀ (names : List String), (∀ p ∈ names, f p = f2 p) →
      packRows f names = packRows f2 names := by
  intro names
  induction names with
  | nil => intro _; rfl
  | cons p ps ih =>
    intro h
    unfold packRows
    rw [h p (List.mem_cons_self p ps), ih (fun q hq => h q (List.mem_cons_of_mem p hq))]

/-- C4: for every valid `ParameterSet` (each declared global name populated
with a `(N,)` array, each declared regional name with an array flattening
to `N * nodes` entries), `run` packs a global matrix of shape
`(P_g, N)` and a regional matrix of shape `(P_r, N * nodes)` where `P_g`
and `P_r` are the counts of declared names of the active variant, rows in
the fixed declared order, and the result depends only on the lookup
function of `param_lists`, not on insertion order. -/
theorem pack_shapes_fixed_order_insertion_independent
    (g : SimGroup) (n : ℕ) (_hN : g.paramN = some n)
    (hg : ∀ p ∈ globalParamNames g.variant, ∃ xs : List ℚ,
      g.param_lists.lookup p = some (some (NDArr.vec xs)) ∧ xs.length = n)
    (hr : ∀ p ∈ regionalParamNames g.variant, ∃ a : NDArr,
      g.param_lists.lookup p = some (some a) ∧ a.flatten.length = n * g.nodes) :
    ∃ G R, packGlobals (globalParamNames g.variant) g.param_lists = some G ∧
      packRegionals (regionalParamNames g.variant) g.param_lists = some R ∧
      G.length = (globalParamNames g.variant).length ∧
      R.length = (regionalParamNames g.variant).length ∧
      (∀ row ∈ G, row.length = n) ∧
      (∀ row ∈ R, row.length = n * g.nodes) ∧
      (∀ i (hi : i < (globalParamNames g.variant).length),
        G[i]? = ((g.param_lists.lookup
          ((globalParamNames g.variant).get ⟨i, hi⟩)).join).bind NDArr.asVec) ∧
      (∀ i (hi : i < (regionalParamNames g.variant).length),
        R[i]? = ((g.param_lists.lookup
          ((regionalParamNames g.variant).get ⟨i, hi⟩)).join).map NDArr.flatten) ∧
      (∀ pl2 : List (String × Option NDArr),
        (∀ p, pl2.lookup p = g.param_lists.lookup p) →
        packGlobals (globalParamNames g.variant) pl2 = some G ∧
        packRegionals (regionalParamNames g.variant) pl2 = some R) := by
  have hg2 : ∀ p ∈ globalParamNames g.variant,
      ∃ y, ((g.param_lists.lookup p).join).bind NDArr.asVec = some y := by
    intro p hp
    obtain ⟨xs, hxs, _⟩ := hg p hp
    exact ⟨xs, by rw [hxs]; rfl⟩
  have hr2 : ∀ p ∈ regionalParamNames g.variant,
      ∃ y, ((g.param_lists.lookup p).join).map NDArr.flatten = some y := by
    intro p hp
    obtain ⟨a, ha, _⟩ := hr p hp
    exact ⟨a.flatten, by rw [ha]; rfl⟩
  obtain ⟨G, hG, hGlen, hGidx⟩ := packRows_spec _ (globalParamNames g.variant) hg2
  obtain ⟨R, hR, hRlen, hRidx⟩ := packRows_spec _ (regionalParamNames g.variant) hr2
  refine ⟨G, R, hG, hR, hGlen, hRlen, ?_, ?_, hGidx, hRidx, ?_⟩
  · intro row hrow
    obtain ⟨i, hri⟩ := List.mem_iff_getElem?.mp hrow
    obtain ⟨hiGl, hval⟩ := List.getElem?_eq_some_iff.mp hri
    have hi : i < (globalParamNames g.variant).length := hGlen ▸ hiGl
    obtain ⟨xs, hxs, hxlen⟩ := hg _ (List.get_mem _ i hi)
    have : G[i]? = some xs := by rw [hGidx i hi, hxs]; rfl
    rw [this] at hri
    have hxr : xs = row := Option.some.inj hri
    rw [← hxr]
    exact hxlen
  · intro row hrow
    obtain ⟨i, hri⟩ := List.mem_iff_getElem?.mp hrow
    obtain ⟨hiRl, hval⟩ := List.getElem?_eq_some_iff.mp hri
    have hi : i < (regionalParamNames g.variant).length := hRlen ▸ hiRl
    obtain ⟨a, ha, halen⟩ := hr _ (List.get_mem _ i hi)
    have : R[i]? = some a.flatten := by rw [hRidx i hi, ha]; rfl
    rw [this] at hri
    have har : a.flatten = row := Option.some.inj hri
    rw [← har]
    exact halen
  · intro pl2 hpl2
    constructor
    · rw [packGlobals, packRows_congr _ (fun p => ((g.param_lists.lookup p).join).bind NDArr.asVec)
        _ (fun p _ => by rw [hpl2 p])]
      exact hG
    · rw [packRegionals, packRows_congr _ (fun p => ((g.param_lists.lookup p).join).map NDArr.flatten)
        _ (fun p _ => by rw [hpl2 p])]
      exact hR

/-- A concrete FIC-enabled group with `N = 1` whose declared parameters are
all populated with arrays of the right shapes (`wIE` was zero-initialized
by the `N` setter). -/
def c4Group : SimGroup :=
  let g0 := setN grpRww 1
  { g0 with param_lists :=
      (storeSet (storeSet (storeSet g0.param_lists "G" (some (NDArr.vec [1])))
        "wEE" (some (NDArr.mat [[2, 2]])))
        "wEI" (some (NDArr.mat [[3, 3]]))) }

/-- Witness for C4 at the concrete populated store (`N = 1`, `nodes = 2`). -/
theorem pack_shapes_fixed_order_witness :
    ∃ G R, packGlobals (globalParamNames c4Group.variant) c4Group.param_lists = some G ∧
      packRegionals (regionalParamNames c4Group.variant) c4Group.param_lists = some R ∧
      G.length = (globalParamNames c4Group.variant).length ∧
      R.length = (regionalParamNames c4Group.variant).length ∧
      (∀ row ∈ G, row.length = 1) ∧
      (∀ row ∈ R, row.length = 1 * c4Group.nodes) ∧
      (∀ i (hi : i < (globalParamNames c4Group.variant).length),
        G[i]? = ((c4Group.param_lists.lookup
          ((globalParamNames c4Group.variant).get ⟨i, hi⟩)).join).bind NDArr.asVec) ∧
      (∀ i (hi : i < (regionalParamNames c4Group.variant).length),
        R[i]? = ((c4Group.param_lists.lookup
          ((regionalParamNames c4Group.variant).get ⟨i, hi⟩)).join).map NDArr.flatten) ∧
      (∀ pl2 : List (String × Option NDArr),
        (∀ p, pl2.lookup p = c4Group.param_lists.lookup p) →
        packGlobals (globalParamNames c4Group.variant) pl2 = some G ∧
        packRegionals (regionalParamNames c4Group.variant) pl2 = some R) := by
  refine pack_shapes_fixed_order_insertion_independent c4Group 1 (by decide) ?_ ?_
  · intro p hp
    have hv : globalParamNames c4Group.variant = ["G"] := rfl
    rw [hv] at hp
    have hpG := List.mem_singleton.mp hp
    subst hpG
    exact ⟨[1], by decide, by decide⟩
  · intro p hp
    have hv : regionalParamNames c4Group.variant = ["wEE", "wEI", "wIE"] := rfl
    rw [hv] at hp
    simp only [List.mem_cons, List.mem_singleton, List.not_mem_nil, or_false] at hp
    rcases hp with rfl | rfl | rfl
    · exact ⟨NDArr.mat [[2, 2]], by decide, by decide⟩
    · exact ⟨NDArr.mat [[3, 3]], by decide, by decide⟩
    · exact ⟨NDArr.mat [[0, 0]], by decide, by decide⟩

theorem chunkExact_length (k : ℕ) : ∀ (m : ℕ) (xs : List α),
    (chunkExact k m xs).length = m := by
  intro m
  induction m with
  | zero => intro xs; rfl
  | succ m ih =>
    intro xs
    simp [chunkExact, ih]

theorem chunkExact_getElem? (k : ℕ) : ∀ (m i : ℕ) (xs : List α), i < m →
    (chunkExact k m xs)[i]? = some ((xs.drop (k * i)).take k) := by
  intro m
  induction m with
  | zero => intro i xs hi; exact absurd hi (Nat.not_lt_zero i)
  | succ m ih =>
    intro i xs hi
    match i with
    | 0 => simp [chunkExact]
    | Nat.succ j =>
      have hj : j < m := Nat.lt_of_succ_lt_succ hi
      rw [show k * Nat.succ j = k + k * j from by
        rw [Nat.mul_succ]; exact Nat.add_comm (k * j) k]
      show (xs.take k :: chunkExact k m (xs.drop k))[Nat.succ j]? = _
      rw [List.getElem?_cons_succ, ih j (xs.drop k) hj, List.drop_drop]

theorem take_drop_getElem? (xs : List α) (a k j : ℕ) (hj : j < k) :
    ((xs.drop a).take k)[j]? = xs[a + j]? := by
  rw [List.getElem?_take_of_lt hj, List.getElem?_drop]

/-- `reshape2` on a buffer of length `n * P` yields `n` rows, row `i` being
exactly the `i`-th length-`P` slice of the flat layout. -/
theorem reshape2_spec (n P : ℕ) (xs : List α) (hn : 0 < n)
    (hlen : xs.length = n * P) :
    ∃ M, reshape2 n xs = some M ∧ M.length = n ∧
      ∀ i, i < n → M[i]? = some ((xs.drop (P * i)).take P) := by
  have hmod : xs.length % n = 0 := by
    rw [hlen]
    exact Nat.mul_mod_right n P
  have hdiv : xs.length / n = P := by
    rw [hlen]
    exact Nat.mul_div_cancel_left P hn
  refine ⟨chunkExact P n xs, ?_, chunkExact_length P n xs, ?_⟩
  · unfold reshape2
    rw [if_pos ⟨hn, hmod⟩, hdiv]
  · intro i hi
    exact chunkExact_getElem? P n i xs hi

/-- `reshape3` on a buffer of length `n * (T * nodes)` yields `n` blocks,
block `i` being the `i`-th flat slice reshaped to `(T, nodes)`, with the
element at `(i, t, j)` taken from flat position
`i * (T * nodes) + t * nodes + j`. -/
theorem reshape3_spec (n nodes T : ℕ) (xs : List ℚ) (hn : 0 < n)
    (hnd : 0 < nodes) (hlen : xs.length = n * (T * nodes)) :
    ∃ B, reshape3 n nodes xs = some B ∧ B.length = n ∧
      (∀ i, i < n →
        B[i]? = some (chunkExact nodes T ((xs.drop (T * nodes * i)).take (T * nodes)))) ∧
      (∀ i t j, i < n → t < T → j < nodes →
        ((B.getD i []).getD t []).getD j 0 =
          xs.getD (i * (T * nodes) + t * nodes + j) 0) := by
  have hmod : xs.length % (n * nodes) = 0 := by
    rw [hlen, show n * (T * nodes) = n * nodes * T from by ring]
    exact Nat.mul_mod_right (n * nodes) T
  have hdiv : xs.length / n = T * nodes := by
    rw [hlen]
    exact Nat.mul_div_cancel_left (T * nodes) hn
  have hdiv2 : xs.length / n / nodes = T := by
    rw [hdiv]
    exact Nat.mul_div_cancel T hnd
  have hslice : ∀ i, i < n →
      ((chunkExact (xs.length / n) n xs).map
        (chunkExact nodes (xs.length / n / nodes)))[i]? =
      some (chunkExact nodes T ((xs.drop (T * nodes * i)).take (T * nodes))) := by
    intro i hi
    rw [List.getElem?_map, chunkExact_getElem? _ n i xs hi, hdiv2, hdiv]
    rfl
  refine ⟨_, ?_, ?_, hslice, ?_⟩
  · unfold reshape3
    rw [if_pos ⟨hn, hnd, hmod⟩]
  · rw [List.length_map]
    exact chunkExact_length _ n xs
  · intro i t j hi ht hj
    have hB := hslice i hi
    have hm : nodes * t + j < T * nodes := by
      have h1 : nodes * t + j < nodes * (t + 1) := by
        rw [Nat.mul_succ]
        omega
      have h2 : nodes * (t + 1) ≤ nodes * T :=
        Nat.mul_le_mul_left nodes (Nat.succ_le_of_lt ht)
      rw [Nat.mul_comm T nodes]
      exact Nat.lt_of_lt_of_le h1 h2
    simp only [List.getD_eq_getElem?_getD]
    rw [hB, Option.getD_some, chunkExact_getElem? nodes T t _ ht, Option.getD_some,
      take_drop_getElem? _ _ _ _ hj, take_drop_getElem? _ _ _ _ hm]
    rw [show T * nodes * i + (nodes * t + j) = i * (T * nodes) + t * nodes + j from by
      ring]

/-- C5: the tuple consumed by `_process_out` has arity 3 exactly when
extended output is disabled and arity 6 exactly when it is enabled, and
in both cases BOLD is reshaped to `(N, timepoints, nodes)` and the FC/FCD
lower-triangle buffers to `(N, n_pairs)`, preserving the per-simulation
slices of the flat layout exactly (and, when enabled, storing the
state-variable / stability-flag / trial-counter buffers verbatim). -/
theorem processOut_arity_and_reshape (g : SimGroup) (n T P Q : ℕ)
    (bold fc fcd : List ℚ) (st : List (List ℚ)) (gb : List (List Bool))
    (gi : List (List ℤ))
    (hN : g.paramN = some n) (hn : 0 < n) (hnd : 0 < g.nodes)
    (hb : bold.length = n * (T * g.nodes)) (hf : fc.length = n * P)
    (hq : fcd.length = n * Q) :
    ((baseProcessOut g (BackendOut.basic bold fc fcd)).isSome ↔
      g.extended_output = false) ∧
    ((baseProcessOut g (BackendOut.extended bold fc fcd st gb gi)).isSome ↔
      g.extended_output = true) ∧
    (BackendOut.arity (BackendOut.basic bold fc fcd) = 3 ∧
      BackendOut.arity (BackendOut.extended bold fc fcd st gb gi) = 6) ∧
    (∀ g1, baseProcessOut g
        (if g.extended_output then BackendOut.extended bold fc fcd st gb gi
         else BackendOut.basic bold fc fcd) = some g1 →
      (g1.sim_bold.length = n ∧ g1.sim_fc_trils.length = n ∧
        g1.sim_fcd_trils.length = n) ∧
      (∀ i, i < n → g1.sim_fc_trils[i]? = some ((fc.drop (P * i)).take P)) ∧
      (∀ i, i < n → g1.sim_fcd_trils[i]? = some ((fcd.drop (Q * i)).take Q)) ∧
      (∀ i, i < n → g1.sim_bold[i]? = some (chunkExact g.nodes T
        ((bold.drop (T * g.nodes * i)).take (T * g.nodes)))) ∧
      (∀ i t j, i < n → t < T → j < g.nodes →
        ((g1.sim_bold.getD i []).getD t []).getD j 0 =
          bold.getD (i * (T * g.nodes) + t * g.nodes + j) 0) ∧
      (g.extended_output = true →
        g1.sim_states_raw = st ∧ g1.global_bools = gb ∧ g1.global_ints = gi)) := by
  obtain ⟨B, hB, hBlen, hBslice, hBelem⟩ := reshape3_spec n g.nodes T bold hn hnd hb
  obtain ⟨F, hF, hFlen, hFslice⟩ := reshape2_spec n P fc hn hf
  obtain ⟨D, hD, hDlen, hDslice⟩ := reshape2_spec n Q fcd hn hq
  cases hext : g.extended_output with
  | false =>
    have hbasic : baseProcessOut g (BackendOut.basic bold fc fcd) =
        some { g with sim_bold := B, sim_fc_trils := F, sim_fcd_trils := D } := by
      unfold baseProcessOut
      rw [hN, Option.bind_eq_bind, Option.some_bind, hext]
      dsimp only
      rw [hB, Option.bind_eq_bind, Option.some_bind]
      rw [hF, Option.bind_eq_bind, Option.some_bind]
      rw [hD, Option.some_bind]
    have hextd : baseProcessOut g (BackendOut.extended bold fc fcd st gb gi) = none := by
      unfold baseProcessOut
      rw [hN, Option.bind_eq_bind, Option.some_bind, hext]
    refine ⟨by rw [hbasic]; simp, by rw [hextd]; simp, ⟨rfl, rfl⟩, ?_⟩
    intro g1 h1
    rw [if_neg (by simp)] at h1
    rw [hbasic] at h1
    injection h1 with h1
    rw [← h1]
    refine ⟨⟨hBlen, hFlen, hDlen⟩, hFslice, hDslice, hBslice, hBelem, ?_⟩
    intro hcon
    exact absurd hcon (by simp)
  | true =>
    have hextd : baseProcessOut g (BackendOut.extended bold fc fcd st gb gi) =
        some { g with sim_states_raw := st, global_bools := gb, global_ints := gi,
                      sim_bold := B, sim_fc_trils := F, sim_fcd_trils := D } := by
      unfold baseProcessOut
      rw [hN, Option.bind_eq_bind, Option.some_bind, hext]
      dsimp only
      rw [hB, Option.bind_eq_bind, Option.some_bind]
      rw [hF, Option.bind_eq_bind, Option.some_bind]
      rw [hD, Option.some_bind]
    have hbasic : baseProcessOut g (BackendOut.basic bold fc fcd) = none := by
      unfold baseProcessOut
      rw [hN, Option.bind_eq_bind, Option.some_bind, hext]
    refine ⟨by rw [hbasic]; simp, by rw [hextd]; simp, ⟨rfl, rfl⟩, ?_⟩
    intro g1 h1
    rw [if_pos rfl] at h1
    rw [hextd] at h1
    injection h1 with h1
    rw [← h1]
    exact ⟨⟨hBlen, hFlen, hDlen⟩, hFslice, hDslice, hBslice, hBelem,
      fun _ => ⟨rfl, rfl, rfl⟩⟩

/-- Witness for C5 at a concrete group (`N = 1`, `nodes = 2`,
`timepoints = 2`, extended output enabled by default). -/
theorem processOut_arity_and_reshape_witness :
    ((baseProcessOut (setN grpRwwEx 1) (BackendOut.basic [1, 2, 3, 4] [7] [9])).isSome ↔
      (setN grpRwwEx 1).extended_output = false) ∧
    ((baseProcessOut (setN grpRwwEx 1)
        (BackendOut.extended [1, 2, 3, 4] [7] [9] [] [] [])).isSome ↔
      (setN grpRwwEx 1).extended_output = true) ∧
    (BackendOut.arity (BackendOut.basic [1, 2, 3, 4] [7] [9]) = 3 ∧
      BackendOut.arity (BackendOut.extended [1, 2, 3, 4] [7] [9] [] [] []) = 6) ∧
    (∀ g1, baseProcessOut (setN grpRwwEx 1)
        (if (setN grpRwwEx 1).extended_output then
          BackendOut.extended [1, 2, 3, 4] [7] [9] [] [] []
         else BackendOut.basic [1, 2, 3, 4] [7] [9]) = some g1 →
      (g1.sim_bold.length = 1 ∧ g1.sim_fc_trils.length = 1 ∧
        g1.sim_fcd_trils.length = 1) ∧
      (∀ i, i < 1 → g1.sim_fc_trils[i]? =
        some ((([7] : List ℚ).drop (1 * i)).take 1)) ∧
      (∀ i, i < 1 → g1.sim_fcd_trils[i]? =
        some ((([9] : List ℚ).drop (1 * i)).take 1)) ∧
      (∀ i, i < 1 → g1.sim_bold[i]? = some (chunkExact (setN grpRwwEx 1).nodes 2
        ((([1, 2, 3, 4] : List ℚ).drop (2 * (setN grpRwwEx 1).nodes * i)).take
          (2 * (setN grpRwwEx 1).nodes)))) ∧
      (∀ i t j, i < 1 → t < 2 → j < (setN grpRwwEx 1).nodes →
        ((g1.sim_bold.getD i []).getD t []).getD j 0 =
          ([1, 2, 3, 4] : List ℚ).getD
            (i * (2 * (setN grpRwwEx 1).nodes) + t * (setN grpRwwEx 1).nodes + j) 0) ∧
      ((setN grpRwwEx 1).extended_output = true →
        g1.sim_states_raw = [] ∧ g1.global_bools = [] ∧ g1.global_ints = [])) :=
  processOut_arity_and_reshape (setN grpRwwEx 1) 1 2 1 1 [1, 2, 3, 4] [7] [9] [] [] []
    (by decide) (by decide) (by decide) (by decide) (by decide) (by decide)

theorem defaultGofTerms_subset : ∀ t ∈ defaultGofTerms,
    t ∈ (["+fc_corr", "-fc_diff", "-fcd_ks", "-fc_normec"] : List String) := by
  intro t htm
  simp only [defaultGofTerms, List.mem_cons, List.not_mem_nil, or_false] at htm
  rcases htm with rfl | rfl | rfl <;> simp

theorem gofFold_sum (c d k e : ℝ) :
    ∀ (ts : List String) (acc : ℝ),
      (∀ t ∈ ts, t ∈ (["+fc_corr", "-fc_diff", "-fcd_ks", "-fc_normec"] : List String)) →
      gofFold c d k e ts acc = some (acc + (ts.map (termVal c d k e)).sum) := by
  intro ts
  induction ts with
  | nil =>
    intro acc _
    simp [gofFold]
  | cons t ts ih =>
    intro acc h
    have ht := h t (List.mem_cons_self t ts)
    simp only [List.mem_cons, List.not_mem_nil, or_false] at ht
    have hrest := fun q hq => h q (List.mem_cons_of_mem t hq)
    rcases ht with rfl | rfl | rfl | rfl
    · show gofFold c d k e ts (acc + c) = _
      rw [ih _ hrest, List.map_cons, List.sum_cons,
        show termVal c d k e "+fc_corr" = c from rfl, Option.some.injEq]
      ring
    · show gofFold c d k e ts (acc + d) = _
      rw [ih _ hrest, List.map_cons, List.sum_cons,
        show termVal c d k e "-fc_diff" = d from rfl, Option.some.injEq]
      ring
    · show gofFold c d k e ts (acc + k) = _
      rw [ih _ hrest, List.map_cons, List.sum_cons,
        show termVal c d k e "-fcd_ks" = k from rfl, Option.some.injEq]
      ring
    · show gofFold c d k e ts (acc + e) = _
      rw [ih _ hrest, List.map_cons, List.sum_cons,
        show termVal c d k e "-fc_normec" = e from rfl, Option.some.injEq]
      ring

/-- C2: for every batch size, every simulation index and every
caller-selected subset of the four terms, the `+gof` cell of the scores
row is exactly the signed sum of the selected terms of that simulation
(each term carrying the sign its name denotes), and the default selection
is `{+fc_corr, -fc_diff, -fcd_ks}`. -/
theorem gof_is_signed_sum_of_selected_terms (g : SimGroup)
    (emp_fc emp_fcd : List ℝ) (idx n : ℕ)
    (hN : g.paramN = some n) (hidx : idx < n)
    (hterms : ∀ t ∈ g.gof_terms,
      t ∈ (["+fc_corr", "-fc_diff", "-fcd_ks", "-fc_normec"] : List String)) :
    ∃ row, (score g emp_fc emp_fcd)[idx]? = some row ∧
      row.gof = some ((g.gof_terms.map (termVal
        (pearsonR (simFCRow g idx) emp_fc)
        (-|listMean (simFCRow g idx) - listMean emp_fc|)
        (-(ksStat (simFCDRow g idx) emp_fcd))
        (-(fcNormEuclidean (simFCRow g idx) emp_fc)))).sum) ∧
      (defaultGofTerms = ["+fc_corr", "-fc_diff", "-fcd_ks"]) ∧
      (g.gof_terms = defaultGofTerms →
        row.gof = some (pearsonR (simFCRow g idx) emp_fc +
          (-|listMean (simFCRow g idx) - listMean emp_fc|) +
          (-(ksStat (simFCDRow g idx) emp_fcd)))) := by
  have hsc : (score g emp_fc emp_fcd)[idx]? =
      some (scoreRowBase g.gof_terms (simFCRow g idx) (simFCDRow g idx)
        emp_fc emp_fcd) := by
    unfold score
    rw [show g.paramN.getD 0 = n from by rw [hN]; rfl,
      List.getElem?_map, List.getElem?_range hidx]
    rfl
  refine ⟨_, hsc, ?_, rfl, ?_⟩
  · show (gofFold _ _ _ _ g.gof_terms 0) = _
    rw [gofFold_sum _ _ _ _ g.gof_terms 0 hterms, Option.some.injEq, zero_add]
  · intro hdef
    show (gofFold _ _ _ _ g.gof_terms 0) = _
    rw [hdef]
    rw [gofFold_sum _ _ _ _ defaultGofTerms 0 defaultGofTerms_subset,
      Option.some.injEq]
    show 0 + (termVal _ _ _ _ "+fc_corr" + (termVal _ _ _ _ "-fc_diff" +
      (termVal _ _ _ _ "-fcd_ks" + 0))) = _
    rw [show ∀ c d k e : ℝ, termVal c d k e "+fc_corr" = c from fun _ _ _ _ => rfl,
      show ∀ c d k e : ℝ, termVal c d k e "-fc_diff" = d from fun _ _ _ _ => rfl,
      show ∀ c d k e : ℝ, termVal c d k e "-fcd_ks" = k from fun _ _ _ _ => rfl]
    ring

/-- A concrete group with a simulated FC/FCD row in place for scoring. -/
noncomputable def c2Group : SimGroup :=
  { (setN grpRwwEx 1) with sim_fc_trils := [[1, 2]], sim_fcd_trils := [[3]] }

/-- Witness for C2 at the concrete group with the default term
selection. -/
theorem gof_is_signed_sum_of_selected_terms_witness :
    ∃ row, (score c2Group [1, 0] [0])[0]? = some row ∧
      row.gof = some ((c2Group.gof_terms.map (termVal
        (pearsonR (simFCRow c2Group 0) [1, 0])
        (-|listMean (simFCRow c2Group 0) - listMean [1, 0]|)
        (-(ksStat (simFCDRow c2Group 0) [0]))
        (-(fcNormEuclidean (simFCRow c2Group 0) [1, 0])))).sum) ∧
      (defaultGofTerms = ["+fc_corr", "-fc_diff", "-fcd_ks"]) ∧
      (c2Group.gof_terms = defaultGofTerms →
        row.gof = some (pearsonR (simFCRow c2Group 0) [1, 0] +
          (-|listMean (simFCRow c2Group 0) - listMean [1, 0]|) +
          (-(ksStat (simFCDRow c2Group 0) [0])))) :=
  gof_is_signed_sum_of_selected_terms c2Group [1, 0] [0] 0 1 (by decide) (by decide)
    defaultGofTerms_subset

theorem sum_map_ite_filter (l : List ℝ) (f : ℝ → ℝ) :
    (l.map (fun d => if 1 < d then f d else 0)).sum =
      ((l.filter (fun d => decide (1 < d))).map f).sum := by
  induction l with
  | nil => rfl
  | cons a l ih =>
    by_cases ha : 1 < a
    · rw [List.map_cons, List.sum_cons, if_pos ha, List.filter_cons,
        if_pos (show (decide (1 < a)) = true from by simpa using ha),
        List.map_cons, List.sum_cons, ih]
    · rw [List.map_cons, List.sum_cons, if_neg ha, List.filter_cons,
        if_neg (show ¬((decide (1 < a)) = true) from by simpa using ha),
        ih, zero_add]

theorem sum_pos_of_nonneg_of_exists_pos (l : List ℝ)
    (h0 : ∀ x ∈ l, 0 ≤ x) (hex : ∃ x ∈ l, 0 < x) : 0 < l.sum := by
  induction l with
  | nil =>
    obtain ⟨x, hx, _⟩ := hex
    exact absurd hx (List.not_mem_nil x)
  | cons a l ih =>
    rw [List.sum_cons]
    obtain ⟨x, hx, hxpos⟩ := hex
    rcases List.mem_cons.mp hx with rfl | hxl
    · have hl : 0 ≤ l.sum := List.sum_nonneg (fun y hy => h0 y (List.mem_cons_of_mem _ hy))
      linarith
    · have hl : 0 < l.sum :=
        ih (fun y hy => h0 y (List.mem_cons_of_mem _ hy)) ⟨x, hxl, hxpos⟩
      have ha : 0 ≤ a := h0 a (List.mem_cons_self a l)
      linarith

/-- The penalty formula of lines 700-708 applied to one row of per-region
mean rates: 0 when every rate lies within `[2, 4]` Hz; otherwise the
negated sum, over regions whose absolute deviation from 3 Hz exceeds 1,
of `1 - exp(-0.05 * (deviation - 1))`, scaled by `scale / nodes`; and
strictly negative as soon as some deviation exceeds 1 (positive scale). -/
theorem ficPenaltyRow_spec (scale : ℝ) (nodes : ℕ) (row : List ℝ)
    (hnodes : 0 < nodes) :
    ((∀ r ∈ row, 2 ≤ r ∧ r ≤ 4) → ficPenaltyRow scale nodes row = 0) ∧
    ((∃ r ∈ row, 1 < |r - 3|) →
      ficPenaltyRow scale nodes row =
        -(((row.map (fun r => |r - 3|)).filter (fun d => decide (1 < d))).map
            (fun d => 1 - Real.exp (-0.05 * (d - 1)))).sum * scale / nodes) ∧
    ((∃ r ∈ row, 1 < |r - 3|) → 0 < scale →
      ficPenaltyRow scale nodes row < 0) := by
  have hzero : (∀ r ∈ row, 2 ≤ r ∧ r ≤ 4) →
      ficPenaltyRow scale nodes row = 0 := by
    intro hall
    have hany : ((row.map (fun r => |r - 3|)).any (fun d => decide (1 < d))) = false := by
      rw [List.any_eq_false]
      intro d hd
      obtain ⟨r, hr, rfl⟩ := List.mem_map.mp hd
      obtain ⟨h2, h4⟩ := hall r hr
      have habs : |r - 3| ≤ 1 := abs_le.mpr ⟨by linarith, by linarith⟩
      simp only [decide_eq_true_eq]
      exact not_lt.mpr habs
    unfold ficPenaltyRow
    dsimp only
    rw [hany]
    rfl
  have hformula : (∃ r ∈ row, 1 < |r - 3|) →
      ficPenaltyRow scale nodes row =
        -(((row.map (fun r => |r - 3|)).filter (fun d => decide (1 < d))).map
            (fun d => 1 - Real.exp (-0.05 * (d - 1)))).sum * scale / nodes := by
    intro hex
    obtain ⟨r, hr, hrgt⟩ := hex
    have hany : ((row.map (fun r => |r - 3|)).any (fun d => decide (1 < d))) = true :=
      List.any_eq_true.mpr ⟨|r - 3|, List.mem_map.mpr ⟨r, hr, rfl⟩, by
        simpa using hrgt⟩
    unfold ficPenaltyRow
    dsimp only
    rw [hany]
    rw [if_pos rfl, sum_map_ite_filter]
  refine ⟨hzero, hformula, ?_⟩
  intro hex hscale
  rw [hformula hex]
  obtain ⟨r, hr, hrgt⟩ := hex
  have hS : 0 < (((row.map (fun r => |r - 3|)).filter (fun d => decide (1 < d))).map
      (fun d => 1 - Real.exp (-0.05 * (d - 1)))).sum := by
    apply sum_pos_of_nonneg_of_exists_pos
    · intro x hx
      obtain ⟨d, hd, rfl⟩ := List.mem_map.mp hx
      have hd1 : 1 < d := by simpa using (List.mem_filter.mp hd).2
      have : Real.exp (-0.05 * (d - 1)) < 1 := by
        rw [Real.exp_lt_one_iff]
        nlinarith
      linarith
    · refine ⟨1 - Real.exp (-0.05 * (|r - 3| - 1)), List.mem_map.mpr
        ⟨|r - 3|, List.mem_filter.mpr ⟨List.mem_map.mpr ⟨r, hr, rfl⟩, by simpa using hrgt⟩,
          rfl⟩, ?_⟩
      have : Real.exp (-0.05 * (|r - 3| - 1)) < 1 := by
        rw [Real.exp_lt_one_iff]
        nlinarith
      linarith
  have hnR : (0 : ℝ) < nodes := by exact_mod_cast hnodes
  have hnum : -(((row.map (fun r => |r - 3|)).filter (fun d => decide (1 < d))).map
      (fun d => 1 - Real.exp (-0.05 * (d - 1)))).sum * scale < 0 := by
    nlinarith
  exact div_neg_of_neg_of_pos hnum hnR

/-- Concrete rWW constructor arguments with per-timestep extended output
requested. -/
def rwwArgsTs : RWWArgs := { base := { baseArgsA with extended_output_ts := true } }

/-- The group of the concrete per-timestep rWW construction. -/
def grpRwwTs : SimGroup :=
  (((rwwInit envA rwwArgsTs).toOption).map Prod.snd).get (by decide)

/-- The per-timestep group with `N = 1` and a packed regional-parameter
array in place. -/
def c3TsGroup : SimGroup :=
  { (setN grpRwwTs 1) with regional_params := [[1], [1], [5, 6]] }

/-- A well-shaped extended backend output for `c3TsGroup`
(`N = 1`, `timepoints = 2`, `nodes = 2`; state rows flat of length 4). -/
def c3TsOut : BackendOut :=
  BackendOut.extended [0, 0, 0, 0] [0] [0]
    [[1, 2, 1, 2], [1, 2, 1, 2], [3, 3, 5, 5], [0, 0, 0, 0], [0, 0, 0, 0], [0, 0, 0, 0]]
    [[false], [false]] [[0]]

/-- The per-timestep group after demarshaling `c3TsOut`. -/
def c3TsAfter : SimGroup := (rwwProcessOut c3TsGroup c3TsOut).get (by decide)

/-- C3 (code bug): on the default `extended_output_ts = False` path of a
FIC-enabled group, the demarshaled `sim_states["r_E"]` stays the flat
`(N*nodes,)` backend row, so the `mean_r_E[idx, :]` access of
`rWWSimGroup.score` (line 700) raises `IndexError` and the
`-fic_penalty` cell the claim describes is never produced; on the
per-timestep path the cell is exactly the claimed formula
`ficPenaltyRow` applied to the per-region time-means, and that formula is
0 inside the `[2, 4]` Hz band and strictly negative once a deviation
exceeds 1 Hz. -/
theorem fic_penalty_nonts_index_error :
    (c6After.do_fic = true ∧ c6After.fic_penalty = true ∧
      c6After.extended_output_ts = false) ∧
    c6After.sim_states.lookup "r_E" = some (StateVal.flat [3, 3]) ∧
    rwwMeanRERow c6After 0 = none ∧
    rwwFicPenaltyCol c6After 2 0 = none ∧
    (c3TsAfter.extended_output_ts = true ∧
      (rwwMeanRERow c3TsAfter 0).isSome = true ∧
      rwwFicPenaltyCol c3TsAfter 2 0 =
        (rwwMeanRERow c3TsAfter 0).map (ficPenaltyRow 2 c3TsAfter.nodes)) ∧
    ficPenaltyRow 2 2 [(3 : ℝ), 3] = 0 ∧
    ficPenaltyRow 2 2 [(3 : ℝ), 5] < 0 :=
  ⟨⟨by decide, by decide, by decide⟩, by decide, rfl, rfl,
   ⟨by decide, rfl, rfl⟩,
   (ficPenaltyRow_spec 2 2 [3, 3] (by norm_num)).1
     (by
       intro r hr
       simp only [List.mem_cons, List.not_mem_nil, or_false] at hr
       rcases hr with rfl | rfl <;> norm_num),
   (ficPenaltyRow_spec 2 2 [3, 5] (by norm_num)).2.2
     ⟨5, by simp, by norm_num⟩ (by norm_num)⟩

end CuBNM
